import Mathlib

/-!
A shallow embedding of the `pb_xml_util` chunked XML stream parser
(`src/google/protobuf/util/internal/xml_stream_parser.cc`) and of the XML
object writer (`xml_objectwriter.cc`), together with theorems settling the
specification claims about them.

Byte strings are modelled as `List Nat` (each entry an octet value).  The
parser state mirrors the C++ member fields of `XmlStreamParser`; the event
sink (`ObjectWriter`) is modelled as an accumulating list of `Event`s.
-/

namespace XmlUtil

abbrev Bytes := List Nat

/-- ASCII bytes of a Lean string literal (used only for ASCII literals). -/
def bs (s : String) : Bytes := s.toList.map Char.toNat

/-- `ascii_isspace` of the C locale: space, \t, \n, \v, \f, \r. -/
def asciiIsspace (b : Nat) : Bool :=
  b == 32 || b == 9 || b == 10 || b == 11 || b == 12 || b == 13

/-- `IsLetter`: a..z, A..Z or underscore. -/
def isLetter (b : Nat) : Bool :=
  (97 ≤ b && b ≤ 122) || (65 ≤ b && b ≤ 90) || b == 95

/-- `IsAlphanumeric`: letter or digit. -/
def isAlphanumeric (b : Nat) : Bool :=
  isLetter b || (48 ≤ b && b ≤ 57)

/-- `IsAlphanumericOrHyphen`. -/
def isAlphanumericOrHyphen (b : Nat) : Bool :=
  isAlphanumeric b || b == 45

/-- `IsPredefinedEntities`: the remaining input is exactly one of the five
predefined XML entities. -/
def isPredefinedEntities (input : Bytes) : Bool :=
  input == bs "&lt;" || input == bs "&gt;" || input == bs "&amp;" ||
  input == bs "&apos;" || input == bs "&quot;"

/-- `isxdigit`. -/
def isXdigit (b : Nat) : Bool :=
  (48 ≤ b && b ≤ 57) || (97 ≤ b && b ≤ 102) || (65 ≤ b && b ≤ 70)

/-- `hex_digit_to_int` (defined on hex-digit bytes). -/
def hexDigitToInt (b : Nat) : Nat :=
  if 48 ≤ b && b ≤ 57 then b - 48
  else if 97 ≤ b && b ≤ 102 then b - 87
  else if 65 ≤ b && b ≤ 70 then b - 55
  else 0

/-- A UTF-8 continuation/range check on an optional byte. -/
def contB (o : Option Nat) (lo hi : Nat) : Bool :=
  match o with
  | some b => lo ≤ b && b ≤ hi
  | none => false

/-- Modelled from the spec: structural validity of one UTF-8 code point at the
head of the byte list (the upstream protobuf helper
`internal::UTF8SpnStructurallyValid` is not part of this repository's
sources).  Returns the byte length of the valid code point, if any, per
RFC 3629 (no overlong forms, no surrogates, max U+10FFFF). -/
def utf8CharLen : Bytes → Option Nat
  | [] => none
  | b0 :: rest =>
    if b0 ≤ 0x7F then some 1
    else if 0xC2 ≤ b0 && b0 ≤ 0xDF then
      if contB rest[0]? 0x80 0xBF then some 2 else none
    else if 0xE0 ≤ b0 && b0 ≤ 0xEF then
      if contB rest[0]? (if b0 == 0xE0 then 0xA0 else 0x80)
            (if b0 == 0xED then 0x9F else 0xBF) &&
         contB rest[1]? 0x80 0xBF then some 3 else none
    else if 0xF0 ≤ b0 && b0 ≤ 0xF4 then
      if contB rest[0]? (if b0 == 0xF0 then 0x90 else 0x80)
            (if b0 == 0xF4 then 0x8F else 0xBF) &&
         contB rest[1]? 0x80 0xBF && contB rest[2]? 0x80 0xBF then some 4
      else none
    else none

/-- Fuel-driven scan for `utf8Spn`: each valid code point consumes at least
one byte, so fuel `p.length + 1` never runs out. -/
def utf8SpnAux : Nat → Bytes → Nat
  | 0, _ => 0
  | fuel + 1, p =>
    match utf8CharLen p with
    | none => 0
    | some k => k + utf8SpnAux fuel (p.drop k)

/-- Modelled from the spec: `internal::UTF8SpnStructurallyValid`, the length of
the longest structurally valid UTF-8 prefix. -/
def utf8Spn (p : Bytes) : Nat := utf8SpnAux (p.length + 1) p

/-- Modelled from the spec: `internal::IsStructurallyValidUTF8`. -/
def isStructurallyValidUTF8 (p : Bytes) : Bool :=
  utf8Spn p == p.length

/-- Modelled from the spec: `UTF8FirstLetterNumBytes`, the byte length of the
first UTF-8 code point judged from its lead byte (1 for ASCII and stray
continuation bytes, per the upstream lookup table). -/
def utf8FirstLetterNumBytes : Bytes → Nat
  | [] => 0
  | b :: _ =>
    if b < 0xC0 then 1
    else if b < 0xE0 then 2
    else if b < 0xF0 then 3
    else 4

/-- `XmlStreamParser::Advance()` on a raw byte list. -/
def advanceB (p : Bytes) : Bytes :=
  p.drop (min p.length (utf8FirstLetterNumBytes p))

/-- `ConsumeKey` / the trailing part shared with `ConsumeTagName`: the longest
run of alphanumeric-or-hyphen bytes. -/
def spanAlnumHyphen : Bytes → Bytes × Bytes
  | [] => ([], [])
  | b :: rest =>
    if isAlphanumericOrHyphen b then
      let (a, r) := spanAlnumHyphen rest
      (b :: a, r)
    else ([], b :: rest)

/-- `ConsumeKey`: a key begins with a letter and continues with
alphanumerics or hyphen; returns `(key, remaining input)`. -/
def consumeKey : Bytes → Option (Bytes × Bytes)
  | [] => none
  | b :: rest =>
    if isLetter b then
      let (a, r) := spanAlnumHyphen rest
      some (b :: a, r)
    else none

/-- `ConsumeTagName` (lexically identical to `ConsumeKey` in the source). -/
def consumeTagName : Bytes → Option (Bytes × Bytes)
  | [] => none
  | b :: rest =>
    if isLetter b then
      let (a, r) := spanAlnumHyphen rest
      some (b :: a, r)
    else none

/-- `MatchKey`: nonempty input starting with a letter. -/
def matchKey : Bytes → Bool
  | [] => false
  | b :: _ => isLetter b

/-- Inner loop of `ConsumeText` (indices ≥ 1): stop before `<`; an `&` is
only allowed when the whole remaining input equals a predefined entity. -/
def consumeTextLoop : Bytes → Option (Bytes × Bytes)
  | [] => some ([], [])
  | b :: rest =>
    if b == 60 then some ([], b :: rest)
    else if b == 38 && !isPredefinedEntities (b :: rest) then none
    else
      match consumeTextLoop rest with
      | none => none
      | some (t, r) => some (b :: t, r)

/-- `ConsumeText`: at least one byte of text, up to the next `<`. -/
def consumeText : Bytes → Option (Bytes × Bytes)
  | [] => none
  | b :: rest =>
    match consumeTextLoop rest with
    | none => none
    | some (t, r) => some (b :: t, r)

/-- Fuel-driven loop of `ReplaceInvalidCodePoints`: each round removes at
least one byte, so fuel `str.length + 1` never runs out. -/
def replaceInvalidAux : Nat → Bytes → Bytes → Bytes
  | 0, _, _ => []
  | fuel + 1, str, replacement =>
    if str = [] then []
    else
      let n := utf8Spn str
      if n = str.length then str.take n
      else
        str.take n ++ replacement ++
          replaceInvalidAux fuel (str.drop (n + 1)) replacement

/-- `ReplaceInvalidCodePoints`: copy the longest valid UTF-8 prefix, then
substitute the replacement string for one invalid byte, and repeat. -/
def replaceInvalidCodePoints (str replacement : Bytes) : Bytes :=
  replaceInvalidAux (str.length + 1) str replacement

/-! ## Parser state machine (`XmlStreamParser`) -/

/-- `XmlStreamParser::TokenType`. -/
inductive TokenType
  | OPEN_TAG | CLOSE_TAG | END_TAG_SLASH | DECLARATION | COMMENT
  | BEGIN_STRING | ATTR_SEPARATOR | ATTR_VALUE_SEPARATOR | BEGIN_KEY
  | BEGIN_TEXT | UNKNOWN
deriving DecidableEq, Repr

/-- `XmlStreamParser::ParseType` (the unused `ELEMENT_MID` member is never
pushed by the implementation and is omitted). -/
inductive ParseType
  | BEGIN_ELEMENT | START_TAG | BEGIN_ELEMENT_MID | ATTR_KEY | ATTR_MID
  | ATTR_VALUE | BEGIN_ELEMENT_CLOSE | TEXT | END_ELEMENT | END_ELEMENT_MID
  | END_TAG | END_ELEMENT_CLOSE
deriving DecidableEq, Repr

/-- `XmlStreamParser::ElementType`. -/
inductive ElementType
  | OBJECT | LIST
deriving DecidableEq, Repr

/-- `XmlStreamParser::ParseErrorType`. -/
inductive ParseErrorType
  | EXPECTED_OPEN_TAG | EXPECTED_CLOSE_TAG | EXPECTED_CLOSE_TAG_IN_BEGIN_ELEMENT
  | EXPECTED_OPEN_TAG_IN_END_ELEMENT | EXPECTED_CLOSE_IN_END_ELEMENT
  | EXPECTED_SLASH | EXPECTED_END_TAG_SLASH | EXPECTED_SPACE_OR_CLOSE_TAG
  | EXPECTED_EQUAL_MARK | EXPECTED_QUOTE_BEFORE_ATTR_VALUE
  | EXPECTED_BEGIN_KEY_OR_SLASH | EXPECTED_TAG_NAME | EXPECTED_TAG_NAME_IN_END_TAG
  | TAG_NAME_NOT_MATCH | INVALID_KEY | INVALID_TAG_NAME | INVALID_END_TAG_NAME
  | INVALID_TEXT | EXPECTED_CLOSING_QUOTE | ILLEGAL_HEX_STRING
  | INVALID_ESCAPE_SEQUENCE | MISSING_LOW_SURROGATE | INVALID_LOW_SURROGATE
  | INVALID_UNICODE | NON_UTF_8 | PARSING_TERMINATED_BEFORE_END_OF_INPUT
  | ILLEGAL_COMMENT | EXPECTED_DASH_IN_COMMENT | ILLEGAL_CLOSE_COMMENT
  | EXPECTED_CLOSE_DASH_IN_COMMENT | ILLEGAL_DECLARATION
  | EXPECTED_QUESTION_MARK_IN_COMMENT | ILLEGAL_CLOSE_DECLARATION
  | EXPECTED_CLOSE_QUESTION_MARK_IN_DECLARATION
deriving DecidableEq, Repr

/-- `util::Status` as produced by the parser: success, the internal
cancellation sentinel (`util::CancelledError("")`), or an
`InvalidArgumentError` whose message is recorded (the `ParseErrorType` is
carried alongside; it is `none` for the errors the source produces without
one, i.e. the recursion-depth error). -/
inductive PStatus
  | ok
  | cancelled
  | err (kind : Option ParseErrorType) (msg : Bytes)
deriving DecidableEq, Repr

/-- Events delivered to the `ObjectWriter` sink. -/
inductive Event
  | startObject (name : Bytes)
  | endObject
  | startList (name : Bytes)
  | endList
  | renderString (name value : Bytes)
deriving DecidableEq, Repr

/-- The mutable fields of `XmlStreamParser`, plus the stream of events the
parser has sent to its `ObjectWriter` sink.  `key_`/`key_storage_` and
`parsed_`/`parsed_storage_` alias pairs collapse to their byte-string
values (`seen_non_whitespace_` and `allow_no_root_element_` are write-only
in the source and omitted). -/
structure PState where
  stack : List ParseType            -- head of the list = top of std::stack
  leftover : Bytes
  xml : Bytes
  p : Bytes                          -- suffix of `xml` not yet consumed
  key : Bytes
  finishing : Bool
  parsed : Bytes
  parsedStorage : Bytes
  stringOpen : Nat                   -- 0 when no quote is pending
  coerce : Bool                      -- coerce_to_utf8_
  replacement : Bytes                -- utf8_replacement_character_
  recursionDepth : Int
  maxRecursionDepth : Int
  text : Bytes
  tagName : Bytes
  tagNameStack : List (Bytes × Bool)
  elementTypeStack : List ElementType
  events : List Event
deriving DecidableEq, Repr

/-- The parser's initial state (constructor of `XmlStreamParser`). -/
def initState : PState :=
  { stack := [.BEGIN_ELEMENT], leftover := [], xml := [], p := [],
    key := [], finishing := false, parsed := [], parsedStorage := [],
    stringOpen := 0, coerce := false, replacement := bs " ",
    recursionDepth := 0, maxRecursionDepth := 100,
    text := [], tagName := [], tagNameStack := [], elementTypeStack := [],
    events := [] }

/-- `XmlStreamParser::Advance()`. -/
def advance (s : PState) : PState := { s with p := advanceB s.p }

def push (ty : ParseType) (s : PState) : PState :=
  { s with stack := ty :: s.stack }

def emit (e : Event) (s : PState) : PState :=
  { s with events := s.events ++ [e] }

/-- `XmlStreamParser::ReportFailure`: message, 20-byte context window and
caret line. -/
def reportFailure (s : PState) (msg : String) (kind : ParseErrorType) : PStatus :=
  let pos := s.xml.length - s.p.length
  let beginPos := pos - 20
  let endPos := min (pos + 20) s.xml.length
  let segment := (s.xml.drop beginPos).take (endPos - beginPos)
  let caret := List.replicate (pos - beginPos) 32 ++ [94]
  .err (some kind) (bs msg ++ [10] ++ segment ++ [10] ++ caret)

/-- `XmlStreamParser::ReportUnknown`. -/
def reportUnknown (s : PState) (msg : String) (kind : ParseErrorType) : PStatus :=
  if !s.finishing then .cancelled
  else if s.p = [] then reportFailure s ("Unexpected end of string. " ++ msg) kind
  else reportFailure s msg kind

/-- `XmlStreamParser::IncrementRecursionDepth`. -/
def incrementRecursionDepth (tagName : Bytes) (s : PState) : PState × PStatus :=
  let s := { s with recursionDepth := s.recursionDepth + 1 }
  if s.recursionDepth > s.maxRecursionDepth then
    (s, .err none (bs "Message too deep. Max recursion depth reached for tag '" ++
                   tagName ++ bs "'"))
  else (s, .ok)

/-- `XmlStreamParser::SkipWhitespace()` (the untyped overload). -/
def skipWhitespaceB : Bytes → Bytes
  | [] => []
  | b :: rest =>
    -- Advance() on an ASCII whitespace byte removes exactly one byte.
    if asciiIsspace b then skipWhitespaceB rest else b :: rest

/-- `XmlStreamParser::SkipWhitespace(ParseType)`: in `BEGIN_ELEMENT_MID` a
space that is the last byte, or whose successor is not whitespace, is
reserved (not consumed). -/
def skipWhitespaceTyped (ty : ParseType) : Bytes → Bytes
  | [] => []
  | b :: rest =>
    if asciiIsspace b then
      if ty == .BEGIN_ELEMENT_MID &&
         (match rest with
          | [] => true
          | c :: _ => !asciiIsspace c) then
        b :: rest
      else skipWhitespaceTyped ty rest
    else b :: rest

/-- The token-classification part of `GetNextTokenType` (after whitespace
skipping). -/
def getTokenOf (p : Bytes) : TokenType :=
  match p with
  | [] => .UNKNOWN
  | b :: _ =>
    if b == 34 || b == 39 then .BEGIN_STRING
    else if b == 60 then .OPEN_TAG
    else if b == 62 then .CLOSE_TAG
    else if b == 47 then .END_TAG_SLASH
    else if b == 63 then .DECLARATION
    else if b == 33 then .COMMENT
    else if b == 32 then .ATTR_SEPARATOR
    else if b == 61 then .ATTR_VALUE_SEPARATOR
    else if matchKey p then .BEGIN_KEY
    else .BEGIN_TEXT

/-- `XmlStreamParser::GetNextTokenType`. -/
def getNextTokenType (ty : ParseType) (s : PState) : PState × TokenType :=
  let p' := skipWhitespaceTyped ty s.p
  ({ s with p := p' }, getTokenOf p')

/-- Modelled from the spec: `IsValidCodePoint` (upstream helper): a Unicode
scalar value, i.e. at most U+10FFFF and not a surrogate. -/
def isValidCodePoint (code : Nat) : Bool :=
  code ≤ 0x10FFFF && !(0xD800 ≤ code && code ≤ 0xDFFF)

/-- Modelled from the spec: `EncodeAsUTF8Char` (upstream helper). -/
def encodeAsUTF8Char (code : Nat) : Bytes :=
  if code < 0x80 then [code]
  else if code < 0x800 then [0xC0 + code / 0x40, 0x80 + code % 0x40]
  else if code < 0x10000 then
    [0xE0 + code / 0x1000, 0x80 + code / 0x40 % 0x40, 0x80 + code % 0x40]
  else
    [0xF0 + code / 0x40000, 0x80 + code / 0x1000 % 0x40,
     0x80 + code / 0x40 % 0x40, 0x80 + code % 0x40]

/-- Four hex digits, or `none` if any byte is not a hex digit (the source
fails with `INVALID_ESCAPE_SEQUENCE` at the first non-digit). -/
def hex4 (a b c d : Nat) : Option Nat :=
  if isXdigit a && isXdigit b && isXdigit c && isXdigit d then
    some (((hexDigitToInt a * 16 + hexDigitToInt b) * 16 + hexDigitToInt c) * 16 +
          hexDigitToInt d)
  else none

/-- Common tail of `ParseUnicodeEscape`: code-point validity check, UTF-8
encoding, final `remove_prefix(6)`. -/
def finishEscape (code : Nat) (s : PState) : PState × PStatus :=
  if !s.coerce && !isValidCodePoint code then
    (s, reportFailure s "Invalid unicode code point." .INVALID_UNICODE)
  else
    ({ s with p := s.p.drop 6,
              parsedStorage := s.parsedStorage ++ encodeAsUTF8Char code }, .ok)

/-- `XmlStreamParser::ParseUnicodeEscape` (entered with `p_` at `\u`). -/
def parseUnicodeEscape (s : PState) : PState × PStatus :=
  match s.p with
  | _ :: _ :: h1 :: h2 :: h3 :: h4 :: rest6 =>
    match hex4 h1 h2 h3 h4 with
    | none => (s, reportFailure s "Invalid escape sequence." .INVALID_ESCAPE_SEQUENCE)
    | some code =>
      if 0xD800 ≤ code && code ≤ 0xDBFF then
        match rest6 with
        | e1 :: e2 :: l1 :: l2 :: l3 :: l4 :: _ =>
          if e1 == 92 && e2 == 117 then
            match hex4 l1 l2 l3 l4 with
            | none =>
              (s, reportFailure s "Invalid escape sequence." .INVALID_ESCAPE_SEQUENCE)
            | some lowCode =>
              if 0xDC00 ≤ lowCode && lowCode ≤ 0xDFFF then
                finishEscape ((code % 0x400) * 0x400 + lowCode % 0x400 + 0x10000)
                  { s with p := s.p.drop 6 }
              else if !s.coerce then
                (s, reportFailure s "Invalid low surrogate." .INVALID_LOW_SURROGATE)
              else finishEscape code s
          else if !s.coerce then
            (s, reportFailure s "Missing low surrogate." .MISSING_LOW_SURROGATE)
          else finishEscape code s
        | _ =>
          -- p_.length() < 2 * kUnicodeEscapedLength
          if !s.finishing then (s, .cancelled)
          else if !s.coerce then
            (s, reportFailure s "Missing low surrogate." .MISSING_LOW_SURROGATE)
          else finishEscape code s
      else finishEscape code s
  | _ =>
    -- p_.length() < kUnicodeEscapedLength
    if !s.finishing then (s, .cancelled)
    else (s, reportFailure s "Illegal hex string." .ILLEGAL_HEX_STRING)

/-- The loop of `ParseStringHelper`.  `acc` is the run of bytes between the
`last` pointer and the cursor (flushed into `parsed_storage_` at escapes and
at suspension).  The loop consumes at least one byte of `p` per iteration,
so the fuel `p.length + 1` supplied by `parseStringHelper` never runs out;
the fuel-exhaustion branch is unreachable. -/
def pshLoop (fuel : Nat) (acc : Bytes) (s : PState) : PState × PStatus :=
  match fuel with
  | 0 => (s, .err none (bs "out of fuel"))
  | fuel + 1 =>
    match s.p with
    | [] =>
      -- Ran out of characters: copy over what we have so far.
      let s := { s with parsedStorage := s.parsedStorage ++ acc }
      if !s.finishing then (s, .cancelled)
      else
        let s := { s with stringOpen := 0 }
        (s, reportFailure s "Closing quote expected in string." .EXPECTED_CLOSING_QUOTE)
    | b :: rest =>
      if b == 92 then
        -- Escape: flush the pending run into parsed_storage_.
        let s := { s with parsedStorage := s.parsedStorage ++ acc }
        match rest with
        | [] =>
          if !s.finishing then (s, .cancelled)
          else (s, reportFailure s "Closing quote expected in string." .EXPECTED_CLOSING_QUOTE)
        | c :: rest2 =>
          if c == 117 then
            let (s2, r) := parseUnicodeEscape s
            if r = .ok then pshLoop fuel [] s2 else (s2, r)
          else
            let esc := if c == 98 then 8 else if c == 102 then 12
                       else if c == 110 then 10 else if c == 114 then 13
                       else if c == 116 then 9 else if c == 118 then 11 else c
            pshLoop fuel [] { s with parsedStorage := s.parsedStorage ++ [esc], p := rest2 }
      else if b == s.stringOpen then
        let value := if s.parsedStorage = [] then acc else s.parsedStorage ++ acc
        let s := { s with parsed := value,
                          parsedStorage :=
                            if s.parsedStorage = [] then s.parsedStorage
                            else s.parsedStorage ++ acc,
                          stringOpen := 0 }
        (advance s, .ok)
      else
        let m := min s.p.length (utf8FirstLetterNumBytes s.p)
        pshLoop fuel (acc ++ s.p.take m) { s with p := s.p.drop m }

/-- `XmlStreamParser::ParseStringHelper`. -/
def parseStringHelper (s : PState) : PState × PStatus :=
  if s.stringOpen == 0 then
    match s.p with
    | q :: _ => pshLoop (s.p.length + 1) [] { advance s with stringOpen := q }
    | [] =>
      -- Unreachable: a BEGIN_STRING token implies a nonempty cursor.
      pshLoop 1 [] s
  else pshLoop (s.p.length + 1) [] s

/-! ### State handlers -/

/-- `XmlStreamParser::ParseBeginElement`. -/
def parseBeginElement (t : TokenType) (s : PState) : PState × PStatus :=
  match t with
  | .OPEN_TAG => (push .START_TAG (advance s), .ok)
  | .UNKNOWN => (s, reportUnknown s "Expected an open tag." .EXPECTED_OPEN_TAG)
  | _ => (s, reportFailure s "Expected an open tag." .EXPECTED_OPEN_TAG)

/-- `XmlStreamParser::ParseTagName`. -/
def parseTagName (s : PState) : PState × PStatus :=
  match consumeTagName s.p with
  | none => (s, reportFailure s "Invalid tag name." .INVALID_TAG_NAME)
  | some (tn, rest) =>
    if !s.finishing && rest = [] then
      -- p_ is reset to `original` and we cancel.
      ({ s with tagName := tn }, .cancelled)
    else ({ s with p := rest, tagName := tn }, .ok)

/-- `XmlStreamParser::ParseStartTagName`. -/
def parseStartTagName (s : PState) : PState × PStatus :=
  let (s1, r) := parseTagName s
  if r = .ok then
    let tn := s1.tagName
    if (bs "_list_").isPrefixOf tn then
      let stripped := tn.drop 6
      let s2 := emit (.startList stripped) s1
      let s3 := { s2 with elementTypeStack := .LIST :: s2.elementTypeStack,
                          tagNameStack := (stripped, true) :: s2.tagNameStack,
                          tagName := [] }
      (push .BEGIN_ELEMENT_MID s3, .ok)
    else
      let parentIsList :=
        match s1.tagNameStack with
        | [] => false
        | (_, fl) :: _ => fl
      let s2 :=
        if tn ≠ bs "anonymous" then
          if tn = bs "root" || parentIsList then emit (.startObject []) s1
          else emit (.startObject tn) s1
        else s1
      let s3 := { s2 with elementTypeStack := .OBJECT :: s2.elementTypeStack }
      let (s4, rd) := incrementRecursionDepth tn s3
      if rd = .ok then
        let s5 := { s4 with tagNameStack := (tn, false) :: s4.tagNameStack,
                            tagName := [] }
        (push .BEGIN_ELEMENT_MID s5, .ok)
      else (s4, rd)
  else (s1, r)

/-- `XmlStreamParser::ParseComments` inner scan (entered past the two
dashes).  Each round consumes at least one byte of `p`, so the fuel
`p.length + 1` supplied by `parseComments` never runs out. -/
def parseCommentsLoop : Nat → PState → PState × PStatus
  | 0, s => (s, .err none (bs "out of fuel"))
  | fuel + 1, s =>
    match s.p with
    | [] =>
      if !s.finishing then (s, .cancelled)
      else (s, reportFailure s "Close dash expected in comment." .EXPECTED_CLOSE_DASH_IN_COMMENT)
    | b :: rest =>
      if b == 45 then
        match rest with
        | c1 :: c2 :: r2 =>
          if c1 == 45 && c2 == 62 then ({ s with p := r2 }, .ok)
          else (s, reportFailure s "Illegal close comment." .ILLEGAL_CLOSE_COMMENT)
        | _ =>
          -- p_.length() < 3
          if !s.finishing then (s, .cancelled)
          else (s, reportFailure s "Illegal close comment." .ILLEGAL_CLOSE_COMMENT)
      else parseCommentsLoop fuel (advance s)

/-- `XmlStreamParser::ParseComments` (entered with `p_` still at the `!`
byte, exactly as in the source). -/
def parseComments (s : PState) : PState × PStatus :=
  match s.p with
  | [] | [_] =>
    -- p_.length() < 2
    if !s.finishing then (s, .cancelled)
    else (s, reportFailure s "Illegal comment." .ILLEGAL_COMMENT)
  | d0 :: d1 :: rest =>
    if d0 == 45 && d1 == 45 then parseCommentsLoop (rest.length + 1) { s with p := rest }
    else (s, reportFailure s "Dash expected in comment." .EXPECTED_DASH_IN_COMMENT)

/-- `XmlStreamParser::ParseDeclaration` inner scan (entered past the `?`).
Each round consumes at least one byte of `p`, so the fuel `p.length + 1`
supplied by `parseDeclaration` never runs out. -/
def parseDeclarationLoop : Nat → PState → PState × PStatus
  | 0, s => (s, .err none (bs "out of fuel"))
  | fuel + 1, s =>
    match s.p with
    | [] =>
      if !s.finishing then (s, .cancelled)
      else (s, reportFailure s "Close question mark expected in comment."
                .EXPECTED_CLOSE_QUESTION_MARK_IN_DECLARATION)
    | b :: rest =>
      if b == 63 then
        match rest with
        | c1 :: r2 =>
          if c1 == 62 then ({ s with p := r2 }, .ok)
          else (s, reportFailure s "Illegal close declaration." .ILLEGAL_CLOSE_DECLARATION)
        | [] =>
          -- p_.length() < 2
          if !s.finishing then (s, .cancelled)
          else (s, reportFailure s "Illegal close declaration." .ILLEGAL_CLOSE_DECLARATION)
      else parseDeclarationLoop fuel (advance s)

/-- `XmlStreamParser::ParseDeclaration` (entered with `p_` at the `?`). -/
def parseDeclaration (s : PState) : PState × PStatus :=
  match s.p with
  | [] =>
    -- p_.length() < 1
    if !s.finishing then (s, .cancelled)
    else (s, reportFailure s "Illegal comment." .ILLEGAL_DECLARATION)
  | d0 :: rest =>
    if d0 == 63 then parseDeclarationLoop (rest.length + 1) { s with p := rest }
    else (s, reportFailure s "Question mark expected in comment."
              .EXPECTED_QUESTION_MARK_IN_COMMENT)

/-- `XmlStreamParser::ParseEndElementMid()` (the overload reached from
`START_TAG` on a `/`; `std::stack::top` on an empty stack is undefined
behaviour in C++ and is modelled as not popping). -/
def parseEndElementMidSlash (s : PState) : PState × PStatus :=
  let s := advance s
  let s :=
    match s.stack with
    | .TEXT :: rest => { s with stack := rest }
    | _ => s
  (push .END_TAG s, .ok)

/-- `XmlStreamParser::ParseStartTag`. -/
def parseStartTag (t : TokenType) (s : PState) : PState × PStatus :=
  match t with
  | .DECLARATION => parseDeclaration s
  | .COMMENT => parseComments s
  | .BEGIN_KEY => parseStartTagName s
  | .END_TAG_SLASH => parseEndElementMidSlash s
  | .UNKNOWN => (s, reportUnknown s "Expected a tag name." .EXPECTED_TAG_NAME)
  | _ => (s, reportFailure s "Expected a tag name." .EXPECTED_TAG_NAME)

/-- `XmlStreamParser::ParseBeginElementMid`. -/
def parseBeginElementMid (t : TokenType) (s : PState) : PState × PStatus :=
  match t with
  | .ATTR_SEPARATOR => (push .ATTR_KEY (advance s), .ok)
  | .CLOSE_TAG => (push .TEXT (advance s), .ok)
  | .UNKNOWN =>
    (s, reportUnknown s "Expected a space or a close tag." .EXPECTED_SPACE_OR_CLOSE_TAG)
  | _ =>
    (s, reportFailure s "Expected a space or a close tag." .EXPECTED_SPACE_OR_CLOSE_TAG)

/-- `XmlStreamParser::ParseText()` (the consuming overload). -/
def parseTextValue (s : PState) : PState × PStatus :=
  match consumeText s.p with
  | none => (s, reportFailure s "Invalid text." .INVALID_TEXT)
  | some (txt, rest) =>
    if !s.finishing && rest = [] then
      -- p_ reset to `original`; text_ keeps the consumed bytes.
      ({ s with text := txt }, .cancelled)
    else
      let s := { s with p := rest, text := txt }
      (push .END_ELEMENT (emit (.renderString [] txt) s), .ok)

/-- `XmlStreamParser::ParseText(TokenType)`. -/
def parseText (t : TokenType) (s : PState) : PState × PStatus :=
  match t with
  | .OPEN_TAG =>
    let s := advance s
    ({ s with stack := .START_TAG :: .TEXT :: s.stack }, .ok)
  | .UNKNOWN => (s, reportUnknown s "Expected an open tag." .EXPECTED_OPEN_TAG)
  | _ => parseTextValue s

/-- `XmlStreamParser::ParseEndElement(TokenType)` (the no-argument overload
advances past the `<` and pushes `END_ELEMENT_MID`). -/
def parseEndElement (t : TokenType) (s : PState) : PState × PStatus :=
  match t with
  | .OPEN_TAG => (push .END_ELEMENT_MID (advance s), .ok)
  | .UNKNOWN => (s, reportUnknown s "Expected an open tag." .EXPECTED_OPEN_TAG)
  | _ =>
    (s, reportFailure s "Expected a open tag in end element." .EXPECTED_OPEN_TAG_IN_END_ELEMENT)

/-- `XmlStreamParser::ParseBeginElementClose`. -/
def parseBeginElementClose (t : TokenType) (s : PState) : PState × PStatus :=
  match t with
  | .CLOSE_TAG => (push .TEXT (advance s), .ok)
  | .UNKNOWN => (s, reportUnknown s "Expected a close tag." .EXPECTED_CLOSE_TAG)
  | _ =>
    (s, reportFailure s "Expected a close tag in begin element."
        .EXPECTED_CLOSE_TAG_IN_BEGIN_ELEMENT)

/-- `XmlStreamParser::ParseEndElementMid(TokenType)`. -/
def parseEndElementMid (t : TokenType) (s : PState) : PState × PStatus :=
  match t with
  | .END_TAG_SLASH => (push .END_TAG (advance s), .ok)
  | .UNKNOWN => (s, reportUnknown s "Expected a slash." .EXPECTED_SLASH)
  | _ => (s, reportFailure s "Expected an end tag slash." .EXPECTED_END_TAG_SLASH)

/-- `XmlStreamParser::ParseEndElementClose`. -/
def parseEndElementClose (t : TokenType) (s : PState) : PState × PStatus :=
  match t with
  | .CLOSE_TAG => (advance s, .ok)
  | .UNKNOWN => (s, reportUnknown s "Expected a close tag." .EXPECTED_CLOSE_TAG)
  | _ =>
    (s, reportFailure s "Expected an close tag in end element." .EXPECTED_CLOSE_IN_END_ELEMENT)

/-- `XmlStreamParser::ParseEndTag`.  Note that the close tag name is
compared against the stack entry only after stripping a `_list_` prefix,
and the is-list flag of the stack entry is ignored (`auto& [name, _]`).
`std::stack::top` on an empty tag stack is undefined behaviour; it is
modelled as a mismatch failure. -/
def parseEndTag (t : TokenType) (s : PState) : PState × PStatus :=
  match t with
  | .BEGIN_KEY =>
    (match consumeTagName s.p with
     | none => (s, reportFailure s "Invalid end tag name." .INVALID_END_TAG_NAME)
     | some (tn, rest) =>
       if !s.finishing && rest = [] then ({ s with tagName := tn }, .cancelled)
       else
         let s := { s with p := rest, tagName := tn }
         let isEndList := (bs "_list_").isPrefixOf tn
         let stripped := if isEndList then tn.drop 6 else tn
         match s.tagNameStack with
         | [] => (s, reportFailure s "Tag name not match." .TAG_NAME_NOT_MATCH)
         | (startTagName, _) :: tnRest =>
           if startTagName = stripped then
             if isEndList then
               let s := emit .endList s
               let s := { s with elementTypeStack := s.elementTypeStack.tail,
                                 tagNameStack := tnRest }
               (push .END_ELEMENT_CLOSE s, .ok)
             else
               let s := if stripped ≠ bs "anonymous" then emit .endObject s else s
               let s := { s with elementTypeStack := s.elementTypeStack.tail,
                                 recursionDepth := s.recursionDepth - 1,
                                 tagNameStack := tnRest }
               (push .END_ELEMENT_CLOSE s, .ok)
           else (s, reportFailure s "Tag name not match." .TAG_NAME_NOT_MATCH))
  | .UNKNOWN => (s, reportUnknown s "Expected a tag name." .EXPECTED_TAG_NAME)
  | _ =>
    (s, reportFailure s "Expected a tag name in end tag." .EXPECTED_TAG_NAME_IN_END_TAG)

/-- `XmlStreamParser::ParseKey`. -/
def parseKey (s : PState) : PState × PStatus :=
  match consumeKey s.p with
  | none => (s, reportFailure s "Invalid key." .INVALID_KEY)
  | some (k, rest) =>
    if !s.finishing && rest = [] then ({ s with key := k }, .cancelled)
    else ({ s with p := rest, key := k }, .ok)

/-- `XmlStreamParser::ParseAttrKey`. -/
def parseAttrKey (t : TokenType) (s : PState) : PState × PStatus :=
  match t with
  | .END_TAG_SLASH => (push .BEGIN_ELEMENT_CLOSE (advance s), .ok)
  | .BEGIN_KEY =>
    let (s1, r) := parseKey s
    if r = .ok then (push .ATTR_MID s1, .ok) else (s1, r)
  | .UNKNOWN =>
    (s, reportUnknown s "Expected a begin key or a slash." .EXPECTED_BEGIN_KEY_OR_SLASH)
  | _ =>
    (s, reportFailure s "Expected a begin key or a slash." .EXPECTED_BEGIN_KEY_OR_SLASH)

/-- `XmlStreamParser::ParseAttrMid`. -/
def parseAttrMid (t : TokenType) (s : PState) : PState × PStatus :=
  match t with
  | .ATTR_VALUE_SEPARATOR => (push .ATTR_VALUE (advance s), .ok)
  | .UNKNOWN => (s, reportUnknown s "Expected a equal mark." .EXPECTED_EQUAL_MARK)
  | _ => (s, reportFailure s "Expected a equal mark." .EXPECTED_EQUAL_MARK)

/-- `XmlStreamParser::ParseAttrValue`. -/
def parseAttrValue (t : TokenType) (s : PState) : PState × PStatus :=
  match t with
  | .BEGIN_STRING =>
    let (s1, r) := parseStringHelper s
    if r = .ok then
      let s2 := emit (.renderString s1.key s1.parsed) s1
      let s3 := { s2 with key := [], parsed := [], parsedStorage := [] }
      (push .BEGIN_ELEMENT_MID s3, .ok)
    else (s1, r)
  | .UNKNOWN =>
    (s, reportUnknown s "Expected a quote before attribute value."
        .EXPECTED_QUOTE_BEFORE_ATTR_VALUE)
  | _ =>
    (s, reportFailure s "Expected a quote before attribute value."
        .EXPECTED_QUOTE_BEFORE_ATTR_VALUE)

/-! ### The parser loop and the public entry points -/

/-- The dispatch switch inside `XmlStreamParser::RunParser`. -/
def dispatch (ty : ParseType) (t : TokenType) (s : PState) : PState × PStatus :=
  match ty with
  | .BEGIN_ELEMENT => parseBeginElement t s
  | .START_TAG => parseStartTag t s
  | .BEGIN_ELEMENT_MID => parseBeginElementMid t s
  | .ATTR_KEY => parseAttrKey t s
  | .ATTR_MID => parseAttrMid t s
  | .ATTR_VALUE => parseAttrValue t s
  | .BEGIN_ELEMENT_CLOSE => parseBeginElementClose t s
  | .TEXT => parseText t s
  | .END_ELEMENT => parseEndElement t s
  | .END_ELEMENT_MID => parseEndElementMid t s
  | .END_TAG => parseEndTag t s
  | .END_ELEMENT_CLOSE => parseEndElementClose t s

/-- `XmlStreamParser::RunParser`.  Every loop iteration either returns or
strictly decreases `3 * p.length + stack.length`, so the fuel supplied by
`parserFuel` never runs out; the fuel-exhaustion branch is unreachable. -/
def runParser (fuel : Nat) (s : PState) : PState × PStatus :=
  match fuel with
  | 0 => (s, .err none (bs "out of fuel"))
  | fuel + 1 =>
    match s.stack with
    | [] => (s, .ok)
    | ty :: rest =>
      let st :=
        if s.stringOpen == 0 then getNextTokenType ty s else (s, TokenType.BEGIN_STRING)
      let s2 := { st.1 with stack := rest }
      let dr := dispatch ty st.2 s2
      match dr.2 with
      | .ok => runParser fuel dr.1
      | .cancelled =>
        if !dr.1.finishing then
          -- Save our state and try again later (the partial key is persisted
          -- into key_storage_, which has no value-level effect here).
          ({ dr.1 with stack := ty :: dr.1.stack }, .ok)
        else (dr.1, .cancelled)
      | e => (dr.1, e)

/-- Sufficient fuel for `runParser` from state `s`. -/
def parserFuel (s : PState) : Nat := 3 * s.p.length + s.stack.length + 1

/-- `XmlStreamParser::ParseChunk`. -/
def parseChunk (chunk : Bytes) (s : PState) : PState × PStatus :=
  if chunk = [] then (s, .ok)
  else
    let s := { s with p := chunk, xml := chunk, finishing := false }
    let rr : PState × PStatus := runParser (parserFuel s) s
    if rr.2 ≠ .ok then rr
    else
      let s2 : PState := { rr.1 with p := skipWhitespaceB rr.1.p }
      if s2.p = [] then ({ s2 with leftover := [] }, .ok)
      else if s2.stack = [] then
        (s2, reportFailure s2 "Parsing terminated before end of input."
             .PARSING_TERMINATED_BEFORE_END_OF_INPUT)
      else ({ s2 with leftover := s2.p }, .ok)

/-- `XmlStreamParser::Parse`. -/
def parse (xml : Bytes) (s : PState) : PState × PStatus :=
  let chunk := s.leftover ++ xml
  let s := { s with leftover := [] }
  let n := utf8Spn chunk
  if n > 0 then
    let pr := parseChunk (chunk.take n) s
    ({ pr.1 with leftover := pr.1.leftover ++ chunk.drop n }, pr.2)
  else
    ({ s with leftover := chunk }, .ok)

/-- The tail of `XmlStreamParser::FinishParse` after the UTF-8 handling:
run the parser in finishing mode and require the input to be exhausted. -/
def finishParseRun (s : PState) : PState × PStatus :=
  let s := { s with finishing := true }
  let rr : PState × PStatus := runParser (parserFuel s) s
  if rr.2 = .ok then
    let s2 : PState := { rr.1 with p := skipWhitespaceB rr.1.p }
    if s2.p ≠ [] then
      (s2, reportFailure s2 "Parsing terminated before end of input."
           .PARSING_TERMINATED_BEFORE_END_OF_INPUT)
    else (s2, .ok)
  else rr

/-- `XmlStreamParser::FinishParse`. -/
def finishParse (s : PState) : PState × PStatus :=
  if s.stack = [] ∧ s.leftover = [] ∧ s.tagNameStack = [] then (s, .ok)
  else
    let isValid := isStructurallyValidUTF8 s.leftover
    if s.coerce && !isValid then
      let scratch := replaceInvalidCodePoints s.leftover s.replacement
      finishParseRun { s with p := scratch, xml := scratch }
    else
      let s := { s with p := s.leftover, xml := s.leftover }
      if !isValid then
        (s, reportFailure s "Encountered non UTF-8 code points." .NON_UTF_8)
      else finishParseRun s

/-- Feed chunks sequentially to `Parse` and then call `FinishParse`,
surfacing the first non-ok status immediately (as the callers and the
repository's tests do). -/
def parseChunks (s : PState) : List Bytes → PState × PStatus
  | [] => finishParse s
  | c :: rest =>
    let pr := parse c s
    if pr.2 = .ok then parseChunks pr.1 rest else pr

/-- Parse a list of chunks starting from a fresh parser. -/
def parseXml (chunks : List Bytes) : PState × PStatus :=
  parseChunks initState chunks

/-! ## XML object writer (`XmlObjectWriter`) -/

/-- `XmlObjectWriter::Element` flags (the `is_first_` flag is never read by
the writer and is omitted). -/
structure WElement where
  name : Bytes
  isXmlObject : Bool
  isXmlList : Bool
  hasChild : Bool
  hasText : Bool
  hasAttribute : Bool
  listChildNeedsEndTag : Bool
  anonymous : Bool
deriving DecidableEq, Repr

/-- The writer: the element parent chain (head = `element_`, last = the
root sentinel built in the constructor), the emitted bytes, and the
member flags.  The `indent_char_`/`indent_count_` fast path produces the
same bytes as the slow path and is not modelled separately. -/
structure WState where
  elements : List WElement
  out : Bytes
  indentStr : Bytes
  useWebsafeBase64ForBytes : Bool
  tagNeedsClosed : Bool
  startElement : Bool
deriving DecidableEq, Repr

/-- Constructor of `XmlObjectWriter`: a root sentinel element with empty
name. -/
def initWriter (indent : Bytes) : WState :=
  { elements := [{ name := [], isXmlObject := false, isXmlList := false,
                   hasChild := false, hasText := false, hasAttribute := false,
                   listChildNeedsEndTag := false, anonymous := false }],
    out := [], indentStr := indent, useWebsafeBase64ForBytes := false,
    tagNeedsClosed := false, startElement := false }

/-- `element_->is_root()`: the current element has no parent.  (When the
chain is empty `element_` is null; dereferencing it is undefined behaviour
in C++, modelled as `false`.) -/
def isRootCur (w : WState) : Bool :=
  match w.elements with
  | [_] => true
  | _ => false

/-- Read a flag of the current element (`false` when the chain is empty,
which in C++ would be a null dereference). -/
def curFlag (f : WElement → Bool) (w : WState) : Bool :=
  match w.elements with
  | e :: _ => f e
  | [] => false

/-- `element_->name()`. -/
def curName (w : WState) : Bytes :=
  match w.elements with
  | e :: _ => e.name
  | [] => []

/-- Mutate the current element (no-op when the chain is empty). -/
def modifyCur (f : WElement → WElement) (w : WState) : WState :=
  match w.elements with
  | e :: rest => { w with elements := f e :: rest }
  | [] => w

/-- `Element::Element`: push a child; the constructor marks the parent as
having a child. -/
def pushElement (isObj isList : Bool) (name : Bytes) (w : WState) : WState :=
  let w := modifyCur (fun e => { e with hasChild := true }) w
  { w with elements :=
      { name := name, isXmlObject := isObj, isXmlList := isList,
        hasChild := false, hasText := false, hasAttribute := false,
        listChildNeedsEndTag := false, anonymous := false } :: w.elements }

/-- `XmlObjectWriter::NewLine`: with a nonempty indent, a newline followed
by `level` copies of the indent string. -/
def newLine (pop : Bool) (w : WState) : WState :=
  let level := if pop then w.elements.length - 1 - 1 else w.elements.length - 1
  if w.indentStr ≠ [] then
    { w with out := w.out ++ [10] ++ (List.replicate level w.indentStr).flatten }
  else w

/-- Modelled from the spec: `JsonEscaping::Escape` (upstream helper) on a
single byte — the JSON-style escaping the writer applies to names and
values: `\"`, `\\`, the C escapes for control characters, `<`/`>`
for angle brackets, `\u00XX` for other control bytes; other bytes pass
through (sufficient for the ASCII values the claims use). -/
def jsonEscapeChar (b : Nat) : Bytes :=
  if b == 8 then bs "\\b"
  else if b == 9 then bs "\\t"
  else if b == 10 then bs "\\n"
  else if b == 12 then bs "\\f"
  else if b == 13 then bs "\\r"
  else if b == 34 then bs "\\\""
  else if b == 92 then bs "\\\\"
  else if b == 60 then bs "\\u003c"
  else if b == 62 then bs "\\u003e"
  else if b < 0x20 then
    bs "\\u00" ++ [if b / 16 < 10 then 48 + b / 16 else 87 + b / 16,
                   if b % 16 < 10 then 48 + b % 16 else 87 + b % 16]
  else [b]

/-- Modelled from the spec: `JsonEscaping::Escape` on a byte string. -/
def jsonEscape (v : Bytes) : Bytes := (v.map jsonEscapeChar).flatten

/-- `XmlObjectWriter::WriteCloseTag`. -/
def writeCloseTag (w : WState) : WState :=
  let w :=
    if w.tagNeedsClosed then { w with out := w.out ++ [62], tagNeedsClosed := false }
    else w
  if !isRootCur w then
    if w.startElement then { newLine false w with startElement := false }
    else if curFlag (·.hasChild) w && !curFlag (·.anonymous) w then newLine true w
    else w
  else w

/-- `XmlObjectWriter::SetHasTextOrAttribute`. -/
def setHasTextOrAttribute (name : Bytes) (w : WState) : WState :=
  if name = [] then modifyCur (fun e => { e with hasText := true }) w
  else modifyCur (fun e => { e with hasAttribute := true }) w

/-- `XmlObjectWriter::WritePrefix`. -/
def writePrefix (name : Bytes) (render : Bool) (w : WState) : WState :=
  let w :=
    if w.tagNeedsClosed && !render then
      { w with out := w.out ++ [62], tagNeedsClosed := false }
    else w
  let w :=
    if !render then
      if !isRootCur w then
        if w.startElement then { newLine false w with startElement := false }
        else if curFlag (·.hasChild) w then newLine true w
        else w
      else w
    else w
  let w :=
    if render && curFlag (·.isXmlList) w then
      let w := newLine false w
      let w := { w with out := w.out ++ [60] ++ bs "anonymous" }
      let w := modifyCur (fun e =>
        { e with anonymous := true, hasChild := true, listChildNeedsEndTag := true }) w
      { w with tagNeedsClosed := true }
    else w
  if render then
    if name ≠ [] then { w with out := w.out ++ [32] ++ jsonEscape name ++ [61] }
    else { w with out := w.out ++ [62], tagNeedsClosed := false }
  else
    if w.tagNeedsClosed then { w with out := w.out ++ [62], tagNeedsClosed := false }
    else w

/-- `XmlObjectWriter::WriteSuffix`. -/
def writeSuffix (w : WState) : WState :=
  if curFlag (·.isXmlList) w then
    if curFlag (·.listChildNeedsEndTag) w then
      let w := writeCloseTag w
      let w := { w with out := w.out ++ bs "</" }
      let w :=
        if curFlag (·.anonymous) w then
          modifyCur (fun e => { e with anonymous := false })
            { w with out := w.out ++ bs "anonymous" }
        else { w with out := w.out ++ curName w }
      let w := { w with out := w.out ++ [62] }
      modifyCur (fun e => { e with listChildNeedsEndTag := false }) w
    else w
  else w

/-- `XmlObjectWriter::StartObject`. -/
def startObject (name : Bytes) (w : WState) : WState :=
  let w := modifyCur (fun e =>
    { e with hasChild := false, hasText := false, hasAttribute := false }) w
  let w := { w with startElement := true }
  let tagName :=
    if name = [] then
      if isRootCur w then bs "root"
      else if curFlag (·.isXmlList) w then curName w
      else name
    else name
  let w := writePrefix tagName false w
  let w := { w with out := w.out ++ [60] ++ tagName, tagNeedsClosed := true }
  pushElement true false tagName w

/-- `XmlObjectWriter::EndObject`. -/
def endObject (w : WState) : WState :=
  let w := { w with startElement := false }
  let tagName := curName w
  let w := writeCloseTag w
  let w :=
    if tagName ≠ [] then { w with out := w.out ++ bs "</" ++ tagName ++ [62] }
    else w
  let w := { w with elements := w.elements.tail }
  let w := writeSuffix w
  if isRootCur w then newLine false w else w

/-- `XmlObjectWriter::StartList`. -/
def startList (name : Bytes) (w : WState) : WState :=
  let w := { w with startElement := true }
  let w := writePrefix name false w
  let w := { w with out := w.out ++ bs "<_list_" ++ name ++ [62] }
  pushElement false true name w

/-- `XmlObjectWriter::EndList`. -/
def endList (w : WState) : WState :=
  let w := { w with startElement := false }
  let w := writeCloseTag w
  let tagName := curName w
  let w := { w with out := w.out ++ bs "</_list_" ++ tagName ++ [62] }
  let w := { w with elements := w.elements.tail }
  let w := writeSuffix w
  if isRootCur w then newLine false w else w

/-- `XmlObjectWriter::RenderString`. -/
def renderString (name value : Bytes) (w : WState) : WState :=
  let w := writePrefix name true w
  let w := if name ≠ [] then { w with out := w.out ++ [34] } else w
  let w := { w with out := w.out ++ jsonEscape value }
  let w := if name ≠ [] then { w with out := w.out ++ [34] } else w
  let w := setHasTextOrAttribute name w
  writeSuffix w

/-- `StrCat` of a signed 64-bit integer: its decimal digits. -/
def intDecimal (v : Int) : Bytes := bs (toString v)

/-- `StrCat` of an unsigned 64-bit integer: its decimal digits. -/
def natDecimal (v : Nat) : Bytes := bs (toString v)

/-- `XmlObjectWriter::RenderInt64`: quotes only around named
(attribute-position) values. -/
def renderInt64 (name : Bytes) (value : Int) (w : WState) : WState :=
  let w := writePrefix name true w
  let w := if name ≠ [] then { w with out := w.out ++ [34] } else w
  let w := { w with out := w.out ++ intDecimal value }
  let w := if name ≠ [] then { w with out := w.out ++ [34] } else w
  let w := setHasTextOrAttribute name w
  writeSuffix w

/-- `XmlObjectWriter::RenderUint64`: quotes written unconditionally. -/
def renderUint64 (name : Bytes) (value : Nat) (w : WState) : WState :=
  let w := writePrefix name true w
  let w := { w with out := w.out ++ [34] ++ natDecimal value ++ [34] }
  let w := setHasTextOrAttribute name w
  writeSuffix w

/-- Apply one sink event to the writer (`ObjectWriter` interface). -/
def applyEvent (w : WState) : Event → WState
  | .startObject n => startObject n w
  | .endObject => endObject w
  | .startList n => startList n w
  | .endList => endList w
  | .renderString n v => renderString n v w

/-- Serialize an event sequence. -/
def writeEvents (evs : List Event) (w : WState) : WState :=
  evs.foldl applyEvent w

/-! ## Derived definitions used by the claims -/

/-- The `ParseErrorType` carried by an error status, if any. -/
def statusKind : PStatus → Option ParseErrorType
  | .err (some k) _ => some k
  | _ => none

/-- The message carried by an error status. -/
def statusMsg : PStatus → Bytes
  | .err _ m => m
  | _ => []

/-- The number of OBJECT entries on the element-kind stack whose parallel
tag-stack name is not `anonymous` (the quantity named by invariant I2). -/
def nonAnonymousObjectCount (s : PState) : Nat :=
  ((s.elementTypeStack.zip s.tagNameStack).filter
    (fun et => et.1 = ElementType.OBJECT ∧ et.2.1 ≠ bs "anonymous")).length

/-- A lexically valid tag name or key: a letter or underscore followed by
alphanumerics or hyphens (§4.1 of the spec, `ConsumeTagName`). -/
def validTagName : Bytes → Bool
  | [] => false
  | b :: rest => isLetter b && rest.all isAlphanumericOrHyphen

/-- The remaining input does not continue a tag name or key. -/
def stopsName : Bytes → Bool
  | [] => true
  | c :: _ => !isAlphanumericOrHyphen c

/-- The opening tag `<n>` for a tag name `n` (input constructor for the
recursion-depth scenarios). -/
def openTagB (n : Bytes) : Bytes := 60 :: (n ++ [62])

/-- The closing tag `</n>`. -/
def closeTagB (n : Bytes) : Bytes := 60 :: 47 :: (n ++ [62])

/-- `<n1>...<nk></nk>...</n1>`: balanced nesting of the given tag names. -/
def nestedXml (names : List Bytes) : Bytes :=
  (names.map openTagB).flatten ++ (names.reverse.map closeTagB).flatten

/-! ## Claims -/

/-- C1: the claim asserts that chunked parsing is equivalent to whole-input
parsing for every partition.  The code violates this: `ParseDeclaration`
(and `ParseComments`) consume bytes and then cancel at end of chunk
without restoring `p_`, losing the position inside the declaration.  On
`<root><?a?></root>`, parsing the whole input succeeds with events
`start_object("");end_object()`, while splitting it after `<root><?a`
drops the declaration state, mis-parses the remainder and fails, having
emitted only `start_object("")`. -/
theorem C1_declaration_split_divergence :
    (parseXml [bs "<root><?a?></root>"]).2 = PStatus.ok ∧
    (parseXml [bs "<root><?a?></root>"]).1.events =
      [Event.startObject [], Event.endObject] ∧
    (parseXml [(bs "<root><?a?></root>").take 9,
               (bs "<root><?a?></root>").drop 9]).2 ≠ PStatus.ok ∧
    (parseXml [(bs "<root><?a?></root>").take 9,
               (bs "<root><?a?></root>").drop 9]).1.events =
      [Event.startObject []] :=
  ⟨rfl, rfl, by decide, rfl⟩

/-- C2 (counterexample): the claim requires the full lexical close-tag name
(including any `_list_` prefix) to match the opening tag, and an element
opened as `<_list_F>` to be closed only by `</_list_F>` with an `end_list`
event.  In fact `ParseEndTag` compares stripped names only, so
`<_list_F></F>` parses successfully and the close emits `end_object`. -/
theorem C2_counterexample :
    (parseXml [bs "<_list_F></F>"]).2 = PStatus.ok ∧
    (parseXml [bs "<_list_F></F>"]).1.events =
      [Event.startList (bs "F"), Event.endObject] :=
  ⟨rfl, rfl⟩

/-- C3 (counterexample): the claim says opening `<anonymous>` leaves the
recursion counter unchanged and that the counter always equals the number
of non-`anonymous` OBJECT entries.  In fact `ParseStartTagName` calls
`IncrementRecursionDepth` for every non-list tag, `anonymous` included:
after parsing the chunk `<anonymous>` the counter is 1 while no
start_object event was emitted and the only OBJECT entry is named
`anonymous`. -/
theorem C3_counterexample :
    (parse (bs "<anonymous>") initState).2 = PStatus.ok ∧
    (parse (bs "<anonymous>") initState).1.events = [] ∧
    (parse (bs "<anonymous>") initState).1.recursionDepth = 1 ∧
    nonAnonymousObjectCount (parse (bs "<anonymous>") initState).1 = 0 :=
  ⟨rfl, rfl, rfl, rfl⟩

/-- C5 (counterexample): the claim says any input with an invalid UTF-8
byte fails with `NON_UTF_8` when `coerce_to_utf8 = false` and parses
successfully when `coerce_to_utf8 = true`.  Both directions fail: with
coercion, the single byte `0xFF` is replaced by a space and the parse
still fails (no root element); without coercion, `>\xFF` fails during
`Parse` with `EXPECTED_OPEN_TAG`, not `NON_UTF_8`. -/
theorem C5_counterexample :
    (parseChunks { initState with coerce := true } [[0xFF]]).2 ≠ PStatus.ok ∧
    statusKind (parseXml [[62, 0xFF]]).2 = some ParseErrorType.EXPECTED_OPEN_TAG :=
  ⟨by decide, rfl⟩

/-- C7: with indentation disabled the writer turns
`start_object("") start_list("test") render_scalar("","a") end_list()
end_object()` into exactly
`<root><_list_test><anonymous>a</anonymous></_list_test></root>`; and in
general a `render_scalar` issued while the current writer element is a
LIST (with no start tag pending) wraps itself in an
`<anonymous>...</anonymous>` pair — as element text for an empty name and
as an attribute of the anonymous element otherwise. -/
theorem C7_list_primitive_anonymous_wrapping :
    ((writeEvents [Event.startObject [], Event.startList (bs "test"),
        Event.renderString [] (bs "a"), Event.endList, Event.endObject]
        (initWriter [])).out =
      bs "<root><_list_test><anonymous>a</anonymous></_list_test></root>") ∧
    ∀ (name v : Bytes) (w : WState) (e : WElement) (es : List WElement),
      w.elements = e :: es → e.isXmlList = true →
      w.tagNeedsClosed = false → w.indentStr = [] →
      (renderString name v w).out = w.out ++ bs "<anonymous" ++
        (if name = [] then [62] ++ jsonEscape v
         else [32] ++ jsonEscape name ++ [61] ++ [34] ++ jsonEscape v ++ [34] ++ [62]) ++
        bs "</anonymous>" := by
  constructor
  · rfl
  · intro name v w e es he hl htnc hind
    rcases w with ⟨elems, out, indent, webs, tnc, se⟩
    simp only at he htnc hind
    subst he htnc hind
    cases se <;> cases es <;>
      by_cases hn : name = [] <;>
        simp [renderString, writePrefix, writeSuffix, writeCloseTag,
          setHasTextOrAttribute, modifyCur, curFlag, curName, isRootCur, newLine,
          hl, hn, bs, List.append_assoc]

/-- Witness for C7: the second conjunct applied to the writer state reached
after `start_object("")` and `start_list("test")`, reproducing the
`<anonymous>a</anonymous>` wrapping of the concrete scenario. -/
theorem C7_witness :
    (renderString [] (bs "a")
      (writeEvents [Event.startObject [], Event.startList (bs "test")]
        (initWriter []))).out =
    (writeEvents [Event.startObject [], Event.startList (bs "test")]
        (initWriter [])).out ++ bs "<anonymous" ++
      ([62] ++ jsonEscape (bs "a")) ++ bs "</anonymous>" := by
  have h := C7_list_primitive_anonymous_wrapping.2 [] (bs "a")
    (writeEvents [Event.startObject [], Event.startList (bs "test")] (initWriter []))
    { name := bs "test", isXmlObject := false, isXmlList := true,
      hasChild := false, hasText := false, hasAttribute := false,
      listChildNeedsEndTag := false, anonymous := false }
    ((writeEvents [Event.startObject [], Event.startList (bs "test")]
        (initWriter [])).elements.tail)
    (by decide) rfl rfl rfl
  simpa using h

/-- C9 (counterexample): the claim says that after `Parse("<root ")` the
trailing space is preserved in `leftover`.  In fact the whitespace skipper
reserves the space but the state machine then consumes it as an
`ATTR_SEPARATOR`: `Parse` returns with `leftover` empty and `ATTR_KEY`
pushed on the parse stack. -/
theorem C9_counterexample :
    (parse (bs "<root ") initState).2 = PStatus.ok ∧
    (parse (bs "<root ") initState).1.leftover = [] ∧
    (parse (bs "<root ") initState).1.stack = [ParseType.ATTR_KEY] :=
  ⟨rfl, rfl, rfl⟩

/-- C10: `RenderUint64` writes its decimal digits wrapped in double quotes
unconditionally — also at an empty (text-position) name — while
`RenderInt64` quotes only named (attribute) values, so `RenderInt64("",v)`
writes bare digits: the 64-bit quoting is asymmetric between the signed
and unsigned renderers.  (Stated for any current element that is not a
list, where no `<anonymous>` wrapping interferes.) -/
theorem C10_uint64_int64_quoting_asymmetry
    (v : Nat) (i : Int) (w : WState) (e : WElement) (es : List WElement)
    (he : w.elements = e :: es) (hl : e.isXmlList = false) :
    (renderUint64 [] v w).out = w.out ++ [62, 34] ++ natDecimal v ++ [34] ∧
    (renderInt64 [] i w).out = w.out ++ [62] ++ intDecimal i := by
  rcases w with ⟨elems, out, indent, webs, tnc, se⟩
  simp only at he
  subst he
  constructor <;>
    simp [renderUint64, renderInt64, writePrefix, writeSuffix, writeCloseTag,
      setHasTextOrAttribute, modifyCur, curFlag, curName, isRootCur, newLine, hl,
      jsonEscape]

/-- Witness for C10: inside `<root>` (an object element), `RenderUint64`
with empty name emits `>"5"` while `RenderInt64` emits `>5`. -/
theorem C10_witness :
    (renderUint64 [] 5 (startObject [] (initWriter []))).out =
      (startObject [] (initWriter [])).out ++ [62, 34] ++ natDecimal 5 ++ [34] ∧
    (renderInt64 [] (-5) (startObject [] (initWriter []))).out =
      (startObject [] (initWriter [])).out ++ [62] ++ intDecimal (-5) :=
  C10_uint64_int64_quoting_asymmetry 5 (-5) (startObject [] (initWriter []))
    { name := bs "root", isXmlObject := true, isXmlList := false,
      hasChild := false, hasText := false, hasAttribute := false,
      listChildNeedsEndTag := false, anonymous := false }
    (startObject [] (initWriter [])).elements.tail (by decide) rfl

/-! ## C8: the cancelled sentinel is never surfaced -/


theorem reportFailure_ne_cancelled (s : PState) (m : String) (k : ParseErrorType) :
    reportFailure s m k ≠ PStatus.cancelled := by simp [reportFailure]

theorem reportUnknown_nocancel (s : PState) (m : String) (k : ParseErrorType)
    (h : s.finishing = true) : reportUnknown s m k ≠ PStatus.cancelled := by
  simp only [reportUnknown, h, Bool.not_true, Bool.false_eq_true, if_false]
  split <;> simp [reportFailure]

theorem parseUnicodeEscape_finishing (s : PState) :
    (parseUnicodeEscape s).1.finishing = s.finishing := by
  unfold parseUnicodeEscape finishEscape
  repeat' split
  all_goals rfl

theorem parseUnicodeEscape_nocancel (s : PState) (h : s.finishing = true) :
    (parseUnicodeEscape s).2 ≠ PStatus.cancelled := by
  unfold parseUnicodeEscape finishEscape
  repeat' split
  all_goals simp_all [reportFailure]

theorem pshLoop_finishing : ∀ (fuel : Nat) (acc : Bytes) (s : PState),
    (pshLoop fuel acc s).1.finishing = s.finishing := by
  intro fuel
  induction fuel with
  | zero => intro acc s; rfl
  | succ n ih =>
    intro acc s
    rw [pshLoop]
    cases hp : s.p with
    | nil => simp [apply_ite]
    | cons b rest =>
      by_cases hb : (b == 92) = true
      · simp only [hb, if_true]
        cases rest with
        | nil => simp [apply_ite]
        | cons c rest2 =>
          by_cases hc : (c == 117) = true
          · simp only [hc, if_true]
            rcases hu : parseUnicodeEscape
                { s with p := b :: c :: rest2,
                         parsedStorage := s.parsedStorage ++ acc } with ⟨s2, r⟩
            have hf := parseUnicodeEscape_finishing
                { s with p := b :: c :: rest2,
                         parsedStorage := s.parsedStorage ++ acc }
            rw [hu] at hf
            have hf2 : s2.finishing = s.finishing := by simpa using hf
            by_cases hr : r = PStatus.ok <;> simp [hr, ih, hf2]
          · simp only [hc, if_false, Bool.false_eq_true]
            rw [ih]
      · simp only [hb, if_false, Bool.false_eq_true]
        by_cases hq : (b == s.stringOpen) = true
        · simp only [hq, if_true]
          rfl
        · simp only [hq, if_false, Bool.false_eq_true]
          rw [ih]

theorem pshLoop_nocancel : ∀ (fuel : Nat) (acc : Bytes) (s : PState),
    s.finishing = true → (pshLoop fuel acc s).2 ≠ PStatus.cancelled := by
  intro fuel
  induction fuel with
  | zero => intro acc s _; simp [pshLoop]
  | succ n ih =>
    intro acc s h
    rw [pshLoop]
    cases hp : s.p with
    | nil => simp [h, reportFailure]
    | cons b rest =>
      by_cases hb : (b == 92) = true
      · simp only [hb, if_true]
        cases rest with
        | nil => simp [h, reportFailure]
        | cons c rest2 =>
          by_cases hc : (c == 117) = true
          · simp only [hc, if_true]
            rcases hu : parseUnicodeEscape
                { s with p := b :: c :: rest2,
                         parsedStorage := s.parsedStorage ++ acc } with ⟨s2, r⟩
            have hf := parseUnicodeEscape_finishing
                { s with p := b :: c :: rest2,
                         parsedStorage := s.parsedStorage ++ acc }
            have hg := parseUnicodeEscape_nocancel
                { s with p := b :: c :: rest2,
                         parsedStorage := s.parsedStorage ++ acc } (by simp [h])
            rw [hu] at hf hg
            have hf2 : s2.finishing = s.finishing := by simpa using hf
            by_cases hr : r = PStatus.ok
            · simp only [hr, if_true]
              exact ih [] s2 (by simp [hf2, h])
            · simpa [hr] using hg
          · simp only [hc, if_false, Bool.false_eq_true]
            exact ih [] _ (by simp [h])
      · simp only [hb, if_false, Bool.false_eq_true]
        by_cases hq : (b == s.stringOpen) = true
        · simp [hq]
        · simp only [hq, if_false, Bool.false_eq_true]
          exact ih _ _ (by simp [h])

theorem parseStringHelper_finishing (s : PState) :
    (parseStringHelper s).1.finishing = s.finishing := by
  unfold parseStringHelper
  repeat' split
  all_goals rw [pshLoop_finishing]
  all_goals rfl

theorem parseStringHelper_nocancel (s : PState) (h : s.finishing = true) :
    (parseStringHelper s).2 ≠ PStatus.cancelled := by
  unfold parseStringHelper
  repeat' split
  all_goals apply pshLoop_nocancel
  all_goals simp [advance, h]

theorem parseTagName_finishing (s : PState) :
    (parseTagName s).1.finishing = s.finishing := by
  unfold parseTagName
  repeat' split
  all_goals rfl

theorem parseTagName_nocancel (s : PState) (h : s.finishing = true) :
    (parseTagName s).2 ≠ PStatus.cancelled := by
  unfold parseTagName
  repeat' split
  all_goals simp_all [reportFailure]

theorem parseKey_finishing (s : PState) :
    (parseKey s).1.finishing = s.finishing := by
  unfold parseKey
  repeat' split
  all_goals rfl

theorem parseKey_nocancel (s : PState) (h : s.finishing = true) :
    (parseKey s).2 ≠ PStatus.cancelled := by
  unfold parseKey
  repeat' split
  all_goals simp_all [reportFailure]

theorem incrementRecursionDepth_finishing (tn : Bytes) (s : PState) :
    (incrementRecursionDepth tn s).1.finishing = s.finishing := by
  unfold incrementRecursionDepth
  dsimp only
  split <;> rfl

theorem incrementRecursionDepth_nocancel (tn : Bytes) (s : PState) :
    (incrementRecursionDepth tn s).2 ≠ PStatus.cancelled := by
  unfold incrementRecursionDepth
  dsimp only
  split <;> simp

theorem parseStartTagName_finishing (s : PState) :
    (parseStartTagName s).1.finishing = s.finishing := by
  unfold parseStartTagName
  rcases ht : parseTagName s with ⟨s1, r⟩
  have hf : s1.finishing = s.finishing := by
    have := parseTagName_finishing s
    rw [ht] at this
    simpa using this
  dsimp only
  repeat' split
  all_goals
    simp [push, emit, incrementRecursionDepth_finishing, hf, apply_ite]

theorem parseStartTagName_nocancel (s : PState) (h : s.finishing = true) :
    (parseStartTagName s).2 ≠ PStatus.cancelled := by
  unfold parseStartTagName
  rcases ht : parseTagName s with ⟨s1, r⟩
  have hr : r ≠ PStatus.cancelled := by
    have := parseTagName_nocancel s h
    rw [ht] at this
    simpa using this
  dsimp only
  repeat' split
  all_goals simp_all [incrementRecursionDepth_nocancel, apply_ite]

theorem parseCommentsLoop_finishing : ∀ (fuel : Nat) (s : PState),
    (parseCommentsLoop fuel s).1.finishing = s.finishing := by
  intro fuel
  induction fuel with
  | zero => intro s; rfl
  | succ n ih =>
    intro s
    rw [parseCommentsLoop]
    repeat' split
    all_goals first | rfl | (rw [ih]; rfl)

theorem parseCommentsLoop_nocancel : ∀ (fuel : Nat) (s : PState),
    s.finishing = true → (parseCommentsLoop fuel s).2 ≠ PStatus.cancelled := by
  intro fuel
  induction fuel with
  | zero => intro s _; simp [parseCommentsLoop]
  | succ n ih =>
    intro s h
    rw [parseCommentsLoop]
    repeat' split
    all_goals first
      | (simp_all [reportFailure]; done)
      | exact ih _ h

theorem parseComments_finishing (s : PState) :
    (parseComments s).1.finishing = s.finishing := by
  unfold parseComments
  repeat' split
  all_goals first | rfl | rw [parseCommentsLoop_finishing]

theorem parseComments_nocancel (s : PState) (h : s.finishing = true) :
    (parseComments s).2 ≠ PStatus.cancelled := by
  unfold parseComments
  repeat' split
  all_goals first
    | (simp_all [reportFailure]; done)
    | exact parseCommentsLoop_nocancel _ _ h
    | exact parseCommentsLoop_nocancel _ _ rfl

theorem parseDeclarationLoop_finishing : ∀ (fuel : Nat) (s : PState),
    (parseDeclarationLoop fuel s).1.finishing = s.finishing := by
  intro fuel
  induction fuel with
  | zero => intro s; rfl
  | succ n ih =>
    intro s
    rw [parseDeclarationLoop]
    repeat' split
    all_goals first | rfl | (rw [ih]; rfl)

theorem parseDeclarationLoop_nocancel : ∀ (fuel : Nat) (s : PState),
    s.finishing = true → (parseDeclarationLoop fuel s).2 ≠ PStatus.cancelled := by
  intro fuel
  induction fuel with
  | zero => intro s _; simp [parseDeclarationLoop]
  | succ n ih =>
    intro s h
    rw [parseDeclarationLoop]
    repeat' split
    all_goals first
      | (simp_all [reportFailure]; done)
      | exact ih _ h

theorem parseDeclaration_finishing (s : PState) :
    (parseDeclaration s).1.finishing = s.finishing := by
  unfold parseDeclaration
  repeat' split
  all_goals first | rfl | rw [parseDeclarationLoop_finishing]

theorem parseDeclaration_nocancel (s : PState) (h : s.finishing = true) :
    (parseDeclaration s).2 ≠ PStatus.cancelled := by
  unfold parseDeclaration
  repeat' split
  all_goals first
    | (simp_all [reportFailure]; done)
    | exact parseDeclarationLoop_nocancel _ _ h
    | exact parseDeclarationLoop_nocancel _ _ rfl

theorem parseTextValue_finishing (s : PState) :
    (parseTextValue s).1.finishing = s.finishing := by
  unfold parseTextValue
  dsimp only
  repeat' split
  all_goals rfl

theorem parseTextValue_nocancel (s : PState) (h : s.finishing = true) :
    (parseTextValue s).2 ≠ PStatus.cancelled := by
  unfold parseTextValue
  dsimp only
  repeat' split
  all_goals simp_all [reportFailure]

theorem parseEndTag_core_finishing (t : TokenType) (s : PState) :
    (parseEndTag t s).1.finishing = s.finishing := by
  unfold parseEndTag
  dsimp only
  repeat' split
  all_goals rfl

theorem parseEndTag_nocancel (t : TokenType) (s : PState) (h : s.finishing = true) :
    (parseEndTag t s).2 ≠ PStatus.cancelled := by
  unfold parseEndTag
  dsimp only
  repeat' split
  all_goals simp_all [reportFailure, reportUnknown_nocancel]

theorem parseAttrValue_finishing (t : TokenType) (s : PState) :
    (parseAttrValue t s).1.finishing = s.finishing := by
  unfold parseAttrValue
  cases t
  all_goals (try rfl)
  all_goals dsimp only
  rcases hh : parseStringHelper s with ⟨s1, r⟩
  have hf : s1.finishing = s.finishing := by
    have := parseStringHelper_finishing s
    rw [hh] at this
    simpa using this
  repeat' split
  all_goals simp_all [push, emit]

theorem parseAttrValue_nocancel (t : TokenType) (s : PState) (h : s.finishing = true) :
    (parseAttrValue t s).2 ≠ PStatus.cancelled := by
  unfold parseAttrValue
  cases t
  all_goals (try (simp_all [reportFailure, reportUnknown_nocancel]; done))
  all_goals dsimp only
  rcases hh : parseStringHelper s with ⟨s1, r⟩
  have hg : r ≠ PStatus.cancelled := by
    have := parseStringHelper_nocancel s h
    rw [hh] at this
    simpa using this
  repeat' split
  all_goals simp_all

theorem parseAttrKey_finishing (t : TokenType) (s : PState) :
    (parseAttrKey t s).1.finishing = s.finishing := by
  unfold parseAttrKey
  cases t
  all_goals (try rfl)
  all_goals dsimp only
  rcases hh : parseKey s with ⟨s1, r⟩
  have hf : s1.finishing = s.finishing := by
    have := parseKey_finishing s
    rw [hh] at this
    simpa using this
  repeat' split
  all_goals simp_all [push]

theorem parseAttrKey_nocancel (t : TokenType) (s : PState) (h : s.finishing = true) :
    (parseAttrKey t s).2 ≠ PStatus.cancelled := by
  unfold parseAttrKey
  cases t
  all_goals (try (simp_all [reportFailure, reportUnknown_nocancel]; done))
  all_goals dsimp only
  rcases hh : parseKey s with ⟨s1, r⟩
  have hg : r ≠ PStatus.cancelled := by
    have := parseKey_nocancel s h
    rw [hh] at this
    simpa using this
  repeat' split
  all_goals simp_all

theorem parseBeginElement_finishing (t : TokenType) (s : PState) :
    (parseBeginElement t s).1.finishing = s.finishing := by
  unfold parseBeginElement
  cases t <;> rfl

theorem parseBeginElement_nocancel (t : TokenType) (s : PState)
    (h : s.finishing = true) : (parseBeginElement t s).2 ≠ PStatus.cancelled := by
  unfold parseBeginElement
  cases t
  all_goals first
    | (simp; done)
    | exact reportUnknown_nocancel _ _ _ h
    | exact reportFailure_ne_cancelled _ _ _

theorem parseBeginElementMid_finishing (t : TokenType) (s : PState) :
    (parseBeginElementMid t s).1.finishing = s.finishing := by
  unfold parseBeginElementMid
  cases t <;> rfl

theorem parseBeginElementMid_nocancel (t : TokenType) (s : PState)
    (h : s.finishing = true) : (parseBeginElementMid t s).2 ≠ PStatus.cancelled := by
  unfold parseBeginElementMid
  cases t
  all_goals first
    | (simp; done)
    | exact reportUnknown_nocancel _ _ _ h
    | exact reportFailure_ne_cancelled _ _ _

theorem parseText_finishing (t : TokenType) (s : PState) :
    (parseText t s).1.finishing = s.finishing := by
  unfold parseText
  cases t
  all_goals first | rfl | exact parseTextValue_finishing s

theorem parseText_nocancel (t : TokenType) (s : PState)
    (h : s.finishing = true) : (parseText t s).2 ≠ PStatus.cancelled := by
  unfold parseText
  cases t
  all_goals first
    | (simp; done)
    | exact reportUnknown_nocancel _ _ _ h
    | exact parseTextValue_nocancel s h

theorem parseEndElement_finishing (t : TokenType) (s : PState) :
    (parseEndElement t s).1.finishing = s.finishing := by
  unfold parseEndElement
  cases t <;> rfl

theorem parseEndElement_nocancel (t : TokenType) (s : PState)
    (h : s.finishing = true) : (parseEndElement t s).2 ≠ PStatus.cancelled := by
  unfold parseEndElement
  cases t
  all_goals first
    | (simp; done)
    | exact reportUnknown_nocancel _ _ _ h
    | exact reportFailure_ne_cancelled _ _ _

theorem parseBeginElementClose_finishing (t : TokenType) (s : PState) :
    (parseBeginElementClose t s).1.finishing = s.finishing := by
  unfold parseBeginElementClose
  cases t <;> rfl

theorem parseBeginElementClose_nocancel (t : TokenType) (s : PState)
    (h : s.finishing = true) : (parseBeginElementClose t s).2 ≠ PStatus.cancelled := by
  unfold parseBeginElementClose
  cases t
  all_goals first
    | (simp; done)
    | exact reportUnknown_nocancel _ _ _ h
    | exact reportFailure_ne_cancelled _ _ _

theorem parseEndElementMid_finishing (t : TokenType) (s : PState) :
    (parseEndElementMid t s).1.finishing = s.finishing := by
  unfold parseEndElementMid
  cases t <;> rfl

theorem parseEndElementMid_nocancel (t : TokenType) (s : PState)
    (h : s.finishing = true) : (parseEndElementMid t s).2 ≠ PStatus.cancelled := by
  unfold parseEndElementMid
  cases t
  all_goals first
    | (simp; done)
    | exact reportUnknown_nocancel _ _ _ h
    | exact reportFailure_ne_cancelled _ _ _

theorem parseEndElementClose_finishing (t : TokenType) (s : PState) :
    (parseEndElementClose t s).1.finishing = s.finishing := by
  unfold parseEndElementClose
  cases t <;> rfl

theorem parseEndElementClose_nocancel (t : TokenType) (s : PState)
    (h : s.finishing = true) : (parseEndElementClose t s).2 ≠ PStatus.cancelled := by
  unfold parseEndElementClose
  cases t
  all_goals first
    | (simp; done)
    | exact reportUnknown_nocancel _ _ _ h
    | exact reportFailure_ne_cancelled _ _ _

theorem parseAttrMid_finishing (t : TokenType) (s : PState) :
    (parseAttrMid t s).1.finishing = s.finishing := by
  unfold parseAttrMid
  cases t <;> rfl

theorem parseAttrMid_nocancel (t : TokenType) (s : PState)
    (h : s.finishing = true) : (parseAttrMid t s).2 ≠ PStatus.cancelled := by
  unfold parseAttrMid
  cases t
  all_goals first
    | (simp; done)
    | exact reportUnknown_nocancel _ _ _ h
    | exact reportFailure_ne_cancelled _ _ _

theorem parseEndElementMidSlash_finishing (s : PState) :
    (parseEndElementMidSlash s).1.finishing = s.finishing := by
  unfold parseEndElementMidSlash
  dsimp only
  repeat' split
  all_goals rfl

theorem parseEndElementMidSlash_nocancel (s : PState) :
    (parseEndElementMidSlash s).2 ≠ PStatus.cancelled := by
  unfold parseEndElementMidSlash
  dsimp only
  repeat' split
  all_goals simp [push]

theorem parseStartTag_finishing (t : TokenType) (s : PState) :
    (parseStartTag t s).1.finishing = s.finishing := by
  unfold parseStartTag
  cases t
  all_goals first
    | rfl
    | exact parseDeclaration_finishing s
    | exact parseComments_finishing s
    | exact parseStartTagName_finishing s
    | exact parseEndElementMidSlash_finishing s

theorem parseStartTag_nocancel (t : TokenType) (s : PState)
    (h : s.finishing = true) : (parseStartTag t s).2 ≠ PStatus.cancelled := by
  unfold parseStartTag
  cases t
  all_goals first
    | exact parseDeclaration_nocancel s h
    | exact parseComments_nocancel s h
    | exact parseStartTagName_nocancel s h
    | exact parseEndElementMidSlash_nocancel s
    | exact reportUnknown_nocancel _ _ _ h
    | exact reportFailure_ne_cancelled _ _ _

theorem dispatch_finishing (ty : ParseType) (t : TokenType) (s : PState) :
    (dispatch ty t s).1.finishing = s.finishing := by
  cases ty
  all_goals simp only [dispatch]
  all_goals first
    | exact parseBeginElement_finishing t s
    | exact parseStartTag_finishing t s
    | exact parseBeginElementMid_finishing t s
    | exact parseAttrKey_finishing t s
    | exact parseAttrMid_finishing t s
    | exact parseAttrValue_finishing t s
    | exact parseBeginElementClose_finishing t s
    | exact parseText_finishing t s
    | exact parseEndElement_finishing t s
    | exact parseEndElementMid_finishing t s
    | exact parseEndTag_core_finishing t s
    | exact parseEndElementClose_finishing t s

theorem dispatch_nocancel (ty : ParseType) (t : TokenType) (s : PState)
    (h : s.finishing = true) : (dispatch ty t s).2 ≠ PStatus.cancelled := by
  cases ty
  all_goals simp only [dispatch]
  all_goals first
    | exact parseBeginElement_nocancel t s h
    | exact parseStartTag_nocancel t s h
    | exact parseBeginElementMid_nocancel t s h
    | exact parseAttrKey_nocancel t s h
    | exact parseAttrMid_nocancel t s h
    | exact parseAttrValue_nocancel t s h
    | exact parseBeginElementClose_nocancel t s h
    | exact parseText_nocancel t s h
    | exact parseEndElement_nocancel t s h
    | exact parseEndElementMid_nocancel t s h
    | exact parseEndTag_nocancel t s h
    | exact parseEndElementClose_nocancel t s h

theorem runTail_nocancel (n : Nat) (ih : ∀ s, (runParser n s).2 ≠ PStatus.cancelled)
    (ty : ParseType) (t : TokenType) (s2 : PState) :
    (match (dispatch ty t s2).2 with
     | PStatus.ok => runParser n (dispatch ty t s2).1
     | PStatus.cancelled =>
       if !(dispatch ty t s2).1.finishing then
         ({ (dispatch ty t s2).1 with stack := ty :: (dispatch ty t s2).1.stack },
          PStatus.ok)
       else ((dispatch ty t s2).1, PStatus.cancelled)
     | e => ((dispatch ty t s2).1, e)).2 ≠ PStatus.cancelled := by
  rcases hd : dispatch ty t s2 with ⟨s3, r⟩
  have hpres : s3.finishing = s2.finishing := by
    have := dispatch_finishing ty t s2
    rw [hd] at this
    simpa using this
  cases r with
  | ok => exact ih _
  | cancelled =>
    dsimp only
    split
    · simp
    · exfalso
      rename_i hfin
      have hg := dispatch_nocancel ty t s2 (by
        rw [← hpres]
        simpa using hfin)
      rw [hd] at hg
      simp at hg
  | err k m => simp

theorem runParser_nocancel : ∀ (fuel : Nat) (s : PState),
    (runParser fuel s).2 ≠ PStatus.cancelled := by
  intro fuel
  induction fuel with
  | zero => intro s; simp [runParser]
  | succ n ih =>
    intro s
    rw [runParser]
    cases hs : s.stack with
    | nil => simp
    | cons ty rest =>
      dsimp only
      exact runTail_nocancel n ih ty _ _

theorem parseChunk_nocancel (c : Bytes) (s : PState) :
    (parseChunk c s).2 ≠ PStatus.cancelled := by
  unfold parseChunk
  dsimp only
  repeat' split
  all_goals first
    | (simp; done)
    | exact reportFailure_ne_cancelled _ _ _
    | exact runParser_nocancel _ _

theorem parse_nocancel (xml : Bytes) (s : PState) :
    (parse xml s).2 ≠ PStatus.cancelled := by
  unfold parse
  dsimp only
  repeat' split
  all_goals first
    | (simp; done)
    | exact parseChunk_nocancel _ _

theorem finishParseRun_nocancel (s : PState) :
    (finishParseRun s).2 ≠ PStatus.cancelled := by
  unfold finishParseRun
  dsimp only
  repeat' split
  all_goals first
    | (simp; done)
    | exact reportFailure_ne_cancelled _ _ _
    | exact runParser_nocancel _ _

theorem finishParse_nocancel (s : PState) :
    (finishParse s).2 ≠ PStatus.cancelled := by
  unfold finishParse
  dsimp only
  repeat' split
  all_goals first
    | (simp; done)
    | exact reportFailure_ne_cancelled _ _ _
    | exact finishParseRun_nocancel _

theorem parseChunks_nocancel : ∀ (chunks : List Bytes) (s : PState),
    (parseChunks s chunks).2 ≠ PStatus.cancelled := by
  intro chunks
  induction chunks with
  | nil => intro s; exact finishParse_nocancel s
  | cons c rest ih =>
    intro s
    unfold parseChunks
    dsimp only
    split
    · exact ih _
    · exact parse_nocancel _ _

/-- C8: neither `Parse` nor `FinishParse` ever returns the CANCELLED status
to the caller, from any parser state, for any input and any chunking: the
internal cancelled sentinel is converted to success inside `RunParser`
during `Parse`, and in finishing mode every would-be suspension point
reports a hard error instead. -/
theorem C8_cancelled_never_surfaced (s : PState) (xml : Bytes) (chunks : List Bytes) :
    (parse xml s).2 ≠ PStatus.cancelled ∧
    (finishParse s).2 ≠ PStatus.cancelled ∧
    (parseChunks s chunks).2 ≠ PStatus.cancelled :=
  ⟨parse_nocancel xml s, finishParse_nocancel s, parseChunks_nocancel chunks s⟩


theorem spanAlnumHyphen_append : ∀ (l r : Bytes),
    l.all isAlphanumericOrHyphen = true → stopsName r = true →
    spanAlnumHyphen (l ++ r) = (l, r) := by
  intro l
  induction l with
  | nil =>
    intro r _ hr
    cases r with
    | nil => rfl
    | cons c t =>
      simp only [stopsName, Bool.not_eq_true'] at hr
      simp [spanAlnumHyphen, hr]
  | cons b l' ih =>
    intro r hl hr
    simp only [List.all_cons, Bool.and_eq_true] at hl
    simp [spanAlnumHyphen, hl.1, ih r hl.2 hr]

theorem consumeTagName_append (n r : Bytes) (hn : validTagName n = true)
    (hr : stopsName r = true) : consumeTagName (n ++ r) = some (n, r) := by
  cases n with
  | nil => simp [validTagName] at hn
  | cons b t =>
    simp only [validTagName, Bool.and_eq_true] at hn
    simp [consumeTagName, hn.1, spanAlnumHyphen_append t r hn.2 hr]

theorem consumeKey_append (n r : Bytes) (hn : validTagName n = true)
    (hr : stopsName r = true) : consumeKey (n ++ r) = some (n, r) := by
  cases n with
  | nil => simp [validTagName] at hn
  | cons b t =>
    simp only [validTagName, Bool.and_eq_true] at hn
    simp [consumeKey, hn.1, spanAlnumHyphen_append t r hn.2 hr]

theorem getTokenOf_letter (b : Nat) (t : Bytes) (h : isLetter b = true) :
    getTokenOf (b :: t) = TokenType.BEGIN_KEY := by
  simp only [isLetter, Bool.or_eq_true, Bool.and_eq_true, decide_eq_true_eq] at h
  unfold getTokenOf
  repeat' split
  all_goals first | rfl | (exfalso; simp_all [matchKey, isLetter]; done) | (exfalso; simp_all [matchKey, isLetter]; omega)

theorem skipWS_nospace (ty : ParseType) (b : Nat) (t : Bytes)
    (h : asciiIsspace b = false) : skipWhitespaceTyped ty (b :: t) = b :: t := by
  simp [skipWhitespaceTyped, h]

theorem isLetter_not_space (b : Nat) (h : isLetter b = true) :
    asciiIsspace b = false := by
  simp only [isLetter, Bool.or_eq_true, Bool.and_eq_true, decide_eq_true_eq,
    beq_iff_eq] at h
  have hb : b ≠ 32 ∧ b ≠ 9 ∧ b ≠ 10 ∧ b ≠ 11 ∧ b ≠ 12 ∧ b ≠ 13 := by omega
  simp [asciiIsspace, hb.1, hb.2.1, hb.2.2.1, hb.2.2.2.1, hb.2.2.2.2.1, hb.2.2.2.2.2]

theorem runParser_cons (fuel : Nat) (s : PState) (ty : ParseType) (K : List ParseType)
    (hs : s.stack = ty :: K) (ho : s.stringOpen = 0) :
    runParser (fuel + 1) s =
      (match (dispatch ty (getTokenOf (skipWhitespaceTyped ty s.p))
          { s with p := skipWhitespaceTyped ty s.p, stack := K }).2 with
       | PStatus.ok =>
         runParser fuel (dispatch ty (getTokenOf (skipWhitespaceTyped ty s.p))
           { s with p := skipWhitespaceTyped ty s.p, stack := K }).1
       | PStatus.cancelled =>
         if !(dispatch ty (getTokenOf (skipWhitespaceTyped ty s.p))
              { s with p := skipWhitespaceTyped ty s.p, stack := K }).1.finishing then
           ({ (dispatch ty (getTokenOf (skipWhitespaceTyped ty s.p))
                { s with p := skipWhitespaceTyped ty s.p, stack := K }).1 with
              stack := ty :: (dispatch ty (getTokenOf (skipWhitespaceTyped ty s.p))
                { s with p := skipWhitespaceTyped ty s.p, stack := K }).1.stack },
            PStatus.ok)
         else ((dispatch ty (getTokenOf (skipWhitespaceTyped ty s.p))
                { s with p := skipWhitespaceTyped ty s.p, stack := K }).1,
               PStatus.cancelled)
       | e => ((dispatch ty (getTokenOf (skipWhitespaceTyped ty s.p))
                { s with p := skipWhitespaceTyped ty s.p, stack := K }).1, e)) := by
  rw [runParser]
  simp only [hs]
  dsimp only [getNextTokenType]
  simp only [show (s.stringOpen == 0) = true from by rw [ho]; rfl, if_true]

theorem advanceB_ascii (b : Nat) (t : Bytes) (h : b < 192) : advanceB (b :: t) = t := by
  have h1 : utf8FirstLetterNumBytes (b :: t) = 1 := by
    simp [utf8FirstLetterNumBytes, h]
  simp [advanceB, h1]

theorem runParser_nil (fuel : Nat) (s : PState) (h : s.stack = []) :
    runParser (fuel + 1) s = (s, .ok) := by
  rw [runParser]
  simp [h]

theorem getTokenOf_open (t : Bytes) : getTokenOf (60 :: t) = TokenType.OPEN_TAG := by
  simp [getTokenOf]

theorem getTokenOf_close (t : Bytes) : getTokenOf (62 :: t) = TokenType.CLOSE_TAG := by
  simp [getTokenOf]

theorem getTokenOf_slash (t : Bytes) : getTokenOf (47 :: t) = TokenType.END_TAG_SLASH := by
  simp [getTokenOf]

theorem getTokenOf_space (t : Bytes) : getTokenOf (32 :: t) = TokenType.ATTR_SEPARATOR := by
  simp [getTokenOf]

theorem getTokenOf_equal (t : Bytes) : getTokenOf (61 :: t) = TokenType.ATTR_VALUE_SEPARATOR := by
  simp [getTokenOf]

theorem getTokenOf_quote (t : Bytes) : getTokenOf (34 :: t) = TokenType.BEGIN_STRING := by
  simp [getTokenOf]

theorem utf8SpnAux_ascii (fuel : Nat) : ∀ p : Bytes, (∀ b ∈ p, b < 128) →
    p.length < fuel → utf8SpnAux fuel p = p.length := by
  induction fuel with
  | zero => intro p _ h; omega
  | succ n ih =>
    intro p hp hl
    cases p with
    | nil => simp [utf8SpnAux, utf8CharLen]
    | cons b t =>
      have hb : b < 128 := hp b (by simp)
      have hcl : utf8CharLen (b :: t) = some 1 := by
        simp [utf8CharLen]; omega
      have ht : utf8SpnAux n t = t.length := by
        apply ih
        · intro x hx; exact hp x (by simp [hx])
        · simpa using hl
      simp [utf8SpnAux, hcl, ht]
      omega

theorem utf8Spn_ascii (p : Bytes) (h : ∀ b ∈ p, b < 128) : utf8Spn p = p.length := by
  apply utf8SpnAux_ascii
  · exact h
  · omega

theorem isStructurallyValidUTF8_ascii (p : Bytes) (h : ∀ b ∈ p, b < 128) :
    isStructurallyValidUTF8 p = true := by
  simp [isStructurallyValidUTF8, utf8Spn_ascii p h]

theorem isAlphanumericOrHyphen_lt128 (b : Nat) (h : isAlphanumericOrHyphen b = true) :
    b < 128 := by
  simp only [isAlphanumericOrHyphen, isAlphanumeric, isLetter, Bool.or_eq_true,
    Bool.and_eq_true, decide_eq_true_eq, beq_iff_eq] at h
  omega

theorem validTagName_lt128 (n : Bytes) (h : validTagName n = true) :
    ∀ b ∈ n, b < 128 := by
  cases n with
  | nil => intro b hb; simp at hb
  | cons c t =>
    simp only [validTagName, Bool.and_eq_true] at h
    intro b hb
    rcases List.mem_cons.mp hb with h1 | h2
    · subst h1
      have := h.1
      simp only [isLetter, Bool.or_eq_true, Bool.and_eq_true, decide_eq_true_eq,
        beq_iff_eq] at this
      omega
    · exact isAlphanumericOrHyphen_lt128 b (by
        have := List.all_eq_true.mp h.2 b h2
        simpa using this)

/-- C5 (amended): with `coerce_to_utf8 = false`, `FinishParse` on a leftover
containing invalid UTF-8 fails with `NON_UTF_8`; with `coerce_to_utf8 = true`
it first rewrites the leftover, substituting the replacement sequence for
each invalid byte (head case shown), and then parses the rewritten bytes --
success of that parse is not guaranteed (see `C5_counterexample`). -/
theorem C5_utf8_coercion (s : PState)
    (hinv : isStructurallyValidUTF8 s.leftover = false) :
    (s.coerce = false →
       statusKind (finishParse s).2 = some ParseErrorType.NON_UTF_8) ∧
    (s.coerce = true →
       finishParse s =
         finishParseRun
           { s with p := replaceInvalidCodePoints s.leftover s.replacement,
                    xml := replaceInvalidCodePoints s.leftover s.replacement }) ∧
    (∀ (b : Nat) (rest r : Bytes), utf8CharLen (b :: rest) = none →
       replaceInvalidCodePoints (b :: rest) r = r ++ replaceInvalidCodePoints rest r) := by
  have hne : s.leftover ≠ [] := by
    intro h
    rw [h] at hinv
    exact absurd hinv (by decide)
  refine ⟨?_, ?_, ?_⟩
  · intro hc
    unfold finishParse
    rw [if_neg (by tauto)]
    dsimp only
    rw [hc, hinv]
    simp [reportFailure, statusKind]
  · intro hc
    unfold finishParse
    rw [if_neg (by tauto)]
    dsimp only
    rw [hc, hinv]
    simp
  · intro b rest r hcl
    have hn : utf8Spn (b :: rest) = 0 := by
      unfold utf8Spn utf8SpnAux
      rw [hcl]
    show replaceInvalidAux (rest.length + 1 + 1) (b :: rest) r = _
    rw [replaceInvalidAux]
    rw [if_neg (List.cons_ne_nil b rest)]
    rw [hn]
    rw [if_neg (by simp)]
    simp [replaceInvalidCodePoints]

theorem C5_witness :
    isStructurallyValidUTF8 ([255] : Bytes) = false ∧
    statusKind (finishParse { initState with leftover := [255] }).2 =
      some ParseErrorType.NON_UTF_8 :=
  ⟨by decide, (C5_utf8_coercion { initState with leftover := [255] } (by decide)).1 rfl⟩

/-- C2 (amended): `ParseEndTag` compares the closing tag name against the
opening entry only after stripping a `_list_` prefix: the parse fails with
`TAG_NAME_NOT_MATCH` exactly when the stripped names differ, and on a match
the emitted event is determined by the closing tag alone -- `end_list` iff
the close begins with `_list_`, otherwise `end_object` (none for
`anonymous`).  In particular `<_list_F>` may be closed by `</F>`, emitting
`end_object` (see `C2_counterexample`). -/
theorem C2_stripped_name_matching (s : PState) (close r opened : Bytes) (fl : Bool)
    (tns : List (Bytes × Bool))
    (hp : s.p = close ++ r) (hc : validTagName close = true)
    (hr : stopsName r = true) (hfin : s.finishing = true)
    (hstk : s.tagNameStack = (opened, fl) :: tns) :
    ((if (bs "_list_").isPrefixOf close then close.drop 6 else close) ≠ opened →
       statusKind (parseEndTag TokenType.BEGIN_KEY s).2 =
         some ParseErrorType.TAG_NAME_NOT_MATCH) ∧
    ((if (bs "_list_").isPrefixOf close then close.drop 6 else close) = opened →
       (parseEndTag TokenType.BEGIN_KEY s).2 = PStatus.ok ∧
       (parseEndTag TokenType.BEGIN_KEY s).1.events =
         s.events ++
           (if (bs "_list_").isPrefixOf close then [Event.endList]
            else if close = bs "anonymous" then [] else [Event.endObject])) := by
  have hct := consumeTagName_append close r hc hr
  constructor
  · intro hne
    unfold parseEndTag
    rw [hp, hct]
    dsimp only
    rw [hfin]
    simp only [Bool.not_true, Bool.false_and, Bool.false_eq_true, if_false, hstk]
    have hm : ¬ (opened = (if (bs "_list_").isPrefixOf close then close.drop 6 else close)) :=
      fun h => hne h.symm
    rw [if_neg hm]
    simp [statusKind, reportFailure]
  · intro heq
    unfold parseEndTag
    rw [hp, hct]
    dsimp only
    rw [hfin]
    simp only [Bool.not_true, Bool.false_and, Bool.false_eq_true, if_false, hstk]
    rw [if_pos heq.symm]
    by_cases hpre : (bs "_list_").isPrefixOf close = true
    · have hpre' : bs "_list_" <+: close := by simpa using hpre
      simp [hpre, hpre', push, emit]
    · have hpre' : ¬ (bs "_list_" <+: close) := by simpa using hpre
      simp only [Bool.not_eq_true] at hpre
      by_cases han : close = bs "anonymous"
      · subst han
        simp [hpre, hpre', push, emit]
      · simp [hpre, hpre', han, push, emit]

theorem C2_witness :
    (parseEndTag TokenType.BEGIN_KEY
       { initState with p := bs "F>", finishing := true,
                        tagNameStack := [(bs "F", true)] }).2 = PStatus.ok ∧
    (parseEndTag TokenType.BEGIN_KEY
       { initState with p := bs "F>", finishing := true,
                        tagNameStack := [(bs "F", true)] }).1.events = [Event.endObject] := by
  have h := (C2_stripped_name_matching
    { initState with p := bs "F>", finishing := true, tagNameStack := [(bs "F", true)] }
    (bs "F") [62] (bs "F") true [] (by decide) (by decide) (by decide) rfl rfl).2 (by decide)
  simpa +decide using h

/-- C3 (amended): opening an element whose tag is exactly `anonymous` emits
no event (the `events` field is unchanged in the resulting state) but DOES
increment the recursion counter, and closing it emits no event and
decrements the counter: the counter tracks all non-list opens, `anonymous`
included, so invariant I2 as stated fails (see `C3_counterexample`). -/
theorem C3_anonymous_depth (s s2 : PState) (r r2 : Bytes) (fl : Bool)
    (tns : List (Bytes × Bool)) :
    (s.p = bs "anonymous" ++ r → stopsName r = true → s.finishing = true →
     s.recursionDepth < s.maxRecursionDepth →
     parseStartTagName s =
       ({ s with p := r, tagName := [],
                 elementTypeStack := ElementType.OBJECT :: s.elementTypeStack,
                 recursionDepth := s.recursionDepth + 1,
                 tagNameStack := (bs "anonymous", false) :: s.tagNameStack,
                 stack := ParseType.BEGIN_ELEMENT_MID :: s.stack }, PStatus.ok)) ∧
    (s2.p = bs "anonymous" ++ r2 → stopsName r2 = true → s2.finishing = true →
     s2.tagNameStack = (bs "anonymous", fl) :: tns →
     parseEndTag TokenType.BEGIN_KEY s2 =
       ({ s2 with p := r2, tagName := bs "anonymous",
                  elementTypeStack := s2.elementTypeStack.tail,
                  recursionDepth := s2.recursionDepth - 1,
                  tagNameStack := tns,
                  stack := ParseType.END_ELEMENT_CLOSE :: s2.stack }, PStatus.ok)) := by
  constructor
  · intro hp hr hfin hd
    have hct := consumeTagName_append (bs "anonymous") r (by decide) hr
    unfold parseStartTagName parseTagName
    rw [hp, hct]
    dsimp only
    rw [hfin]
    simp only [Bool.not_true, Bool.false_and, Bool.false_eq_true, if_false, if_true]
    rw [if_neg (by decide : ¬ (List.isPrefixOf (bs "_list_") (bs "anonymous") = true))]
    rw [if_neg (by simp : ¬ (bs "anonymous" ≠ bs "anonymous"))]
    unfold incrementRecursionDepth
    dsimp only
    rw [if_neg (by omega : ¬ (s.recursionDepth + 1 > s.maxRecursionDepth))]
    simp +decide [push, emit]
  · intro hp hr hfin hstk
    have hct := consumeTagName_append (bs "anonymous") r2 (by decide) hr
    unfold parseEndTag
    rw [hp, hct]
    dsimp only
    rw [hfin]
    simp only [Bool.not_true, Bool.false_and, Bool.false_eq_true, if_false, hstk]
    simp +decide [push, emit]

theorem C3_witness :
    (parseStartTagName { initState with p := bs "anonymous>", finishing := true }).1.events = [] ∧
    (parseStartTagName { initState with p := bs "anonymous>", finishing := true }).1.recursionDepth = 1 ∧
    (parseStartTagName { initState with p := bs "anonymous>", finishing := true }).2 = PStatus.ok := by
  have h := (C3_anonymous_depth { initState with p := bs "anonymous>", finishing := true }
    initState [62] [] false []).1 (by decide) (by decide) rfl (by decide)
  rw [h]
  exact ⟨rfl, rfl, rfl⟩

/-- C9 (amended): the typed whitespace skipper never consumes a trailing
space in `BEGIN_ELEMENT_MID` (on any nonempty input it returns a nonempty
remainder), but after `Parse` returns the space is NOT preserved in
`leftover`: `GetNextTokenType` classifies the reserved space as
`ATTR_SEPARATOR` and the parser suspends in the `ATTR_KEY` state with an
empty leftover (see `C9_counterexample`); the suspended stack still encodes
the decision point, so resumption agrees with whole-input parsing. -/
theorem C9_trailing_space (p : Bytes) (hne : p ≠ []) :
    skipWhitespaceTyped ParseType.BEGIN_ELEMENT_MID p ≠ [] ∧
    ((parse (bs "<root ") initState).1.leftover = [] ∧
     (parse (bs "<root ") initState).1.stack = [ParseType.ATTR_KEY] ∧
     (parseXml [bs "<root ", bs "attr=\"1\"></root>"]).2 =
       (parseXml [bs "<root attr=\"1\"></root>"]).2 ∧
     (parseXml [bs "<root ", bs "attr=\"1\"></root>"]).1.events =
       (parseXml [bs "<root attr=\"1\"></root>"]).1.events) := by
  constructor
  · induction p with
    | nil => exact absurd rfl hne
    | cons b t ih =>
      unfold skipWhitespaceTyped
      by_cases hb : asciiIsspace b = true
      · rw [if_pos hb]
        cases t with
        | nil => simp
        | cons c t2 =>
          by_cases hc : asciiIsspace c = true
          · rw [if_neg (by simp [hc])]
            exact ih (by simp)
          · rw [if_pos (by simp [hc])]
            simp
      · rw [if_neg hb]
        simp
  · exact ⟨rfl, rfl, rfl, rfl⟩

theorem runParser_step (fuel : Nat) (s s' : PState) (ty : ParseType) (K : List ParseType)
    (hs : s.stack = ty :: K) (ho : s.stringOpen = 0)
    (hd : dispatch ty (getTokenOf (skipWhitespaceTyped ty s.p))
            { s with p := skipWhitespaceTyped ty s.p, stack := K } = (s', PStatus.ok)) :
    runParser (fuel + 1) s = runParser fuel s' := by
  rw [runParser_cons fuel s ty K hs ho, hd]

theorem openStep (fuel : Nat) (s : PState) (n : Bytes) (K : List ParseType) (rest : Bytes)
    (hv : validTagName n = true) (hl : (bs "_list_").isPrefixOf n = false)
    (ha : n ≠ bs "anonymous")
    (hpl : s.tagNameStack = [] ∨ ∃ nm tl, s.tagNameStack = (nm, false) :: tl)
    (hs : s.stack = ParseType.TEXT :: K) (ho : s.stringOpen = 0)
    (hp : s.p = openTagB n ++ rest)
    (hd : s.recursionDepth < s.maxRecursionDepth) :
    runParser (fuel + 3) s = runParser fuel
      { s with p := rest,
               stack := ParseType.TEXT :: s.stack,
               tagName := [],
               tagNameStack := (n, false) :: s.tagNameStack,
               elementTypeStack := ElementType.OBJECT :: s.elementTypeStack,
               recursionDepth := s.recursionDepth + 1,
               events := s.events ++
                 [Event.startObject (if n = bs "root" then [] else n)] } := by
  obtain ⟨c, t, rfl⟩ : ∃ c t, n = c :: t := by
    cases n with
    | nil => exact absurd hv (by decide)
    | cons c t => exact ⟨c, t, rfl⟩
  have hlet : isLetter c = true := by
    simp only [validTagName, Bool.and_eq_true] at hv
    exact hv.1
  -- iteration 1: TEXT sees '<', pushes START_TAG
  have hsw1 : skipWhitespaceTyped ParseType.TEXT s.p = 60 :: ((c :: t) ++ 62 :: rest) := by
    rw [hp, show openTagB (c :: t) ++ rest = 60 :: ((c :: t) ++ 62 :: rest) by
      simp [openTagB]]
    exact skipWS_nospace _ 60 _ rfl
  have hd1 : dispatch ParseType.TEXT
      (getTokenOf (skipWhitespaceTyped ParseType.TEXT s.p))
      { s with p := skipWhitespaceTyped ParseType.TEXT s.p, stack := K } =
      ({ s with p := (c :: t) ++ 62 :: rest,
                stack := ParseType.START_TAG :: ParseType.TEXT :: K }, PStatus.ok) := by
    rw [hsw1, getTokenOf_open]
    simp +decide [dispatch, parseText, advance, advanceB_ascii]
  rw [show fuel + 3 = fuel + 2 + 1 from rfl,
      runParser_step (fuel + 2) s _ ParseType.TEXT K hs ho hd1]
  -- iteration 2: START_TAG consumes the tag name
  have hsw2 : skipWhitespaceTyped ParseType.START_TAG ((c :: t) ++ 62 :: rest) =
      c :: (t ++ 62 :: rest) :=
    skipWS_nospace _ c _ (isLetter_not_space c hlet)
  have hct : consumeTagName (c :: (t ++ 62 :: rest)) = some (c :: t, 62 :: rest) := by
    simpa using consumeTagName_append (c :: t) (62 :: rest) hv rfl
  have hd2 : dispatch ParseType.START_TAG
      (getTokenOf (skipWhitespaceTyped ParseType.START_TAG ((c :: t) ++ 62 :: rest)))
      { s with p := skipWhitespaceTyped ParseType.START_TAG ((c :: t) ++ 62 :: rest),
               stack := ParseType.TEXT :: K } =
      ({ s with p := 62 :: rest, tagName := [],
                tagNameStack := (c :: t, false) :: s.tagNameStack,
                elementTypeStack := ElementType.OBJECT :: s.elementTypeStack,
                recursionDepth := s.recursionDepth + 1,
                events := s.events ++
                  [Event.startObject (if (c :: t) = bs "root" then [] else (c :: t))],
                stack := ParseType.BEGIN_ELEMENT_MID :: ParseType.TEXT :: K }, PStatus.ok) := by
    rw [hsw2, getTokenOf_letter c _ hlet]
    show (parseStartTagName _) = _
    unfold parseStartTagName parseTagName
    rw [hct]
    dsimp only
    simp only [List.cons_ne_nil, and_false, Bool.and_false, Bool.false_eq_true, if_false,
      if_true, decide_False, Bool.and_eq_true, decide_eq_true_eq, and_self]
    rw [if_neg (by simp [hl] : ¬ (List.isPrefixOf (bs "_list_") (c :: t) = true))]
    rcases hpl with hnil | ⟨nm, tl, htns⟩
    · rw [hnil]
      dsimp only
      rw [if_pos ha]
      simp only [Bool.or_false]
      by_cases hroot : (c :: t) = bs "root"
      · simp only [hroot, decide_True, eq_self_iff_true, if_true]
        unfold incrementRecursionDepth
        dsimp only [emit]
        rw [if_neg (by omega : ¬ (s.recursionDepth + 1 > s.maxRecursionDepth))]
        simp [push, emit, hnil, hroot]
      · simp only [hroot, decide_False, Bool.false_eq_true, if_false]
        unfold incrementRecursionDepth
        dsimp only [emit]
        rw [if_neg (by omega : ¬ (s.recursionDepth + 1 > s.maxRecursionDepth))]
        simp [push, emit, hnil, hroot]
    · rw [htns]
      dsimp only
      rw [if_pos ha]
      simp only [Bool.or_false]
      by_cases hroot : (c :: t) = bs "root"
      · simp only [hroot, decide_True, eq_self_iff_true, if_true]
        unfold incrementRecursionDepth
        dsimp only [emit]
        rw [if_neg (by omega : ¬ (s.recursionDepth + 1 > s.maxRecursionDepth))]
        simp [push, emit, htns, hroot]
      · simp only [hroot, decide_False, Bool.false_eq_true, if_false]
        unfold incrementRecursionDepth
        dsimp only [emit]
        rw [if_neg (by omega : ¬ (s.recursionDepth + 1 > s.maxRecursionDepth))]
        simp [push, emit, htns, hroot]
  rw [show fuel + 2 = fuel + 1 + 1 from rfl,
      runParser_step (fuel + 1)
        { s with p := (c :: t) ++ 62 :: rest,
                 stack := ParseType.START_TAG :: ParseType.TEXT :: K }
        _ ParseType.START_TAG (ParseType.TEXT :: K) rfl ho hd2]
  -- iteration 3: BEGIN_ELEMENT_MID sees the close bracket, pushes TEXT
  have hd3 : dispatch ParseType.BEGIN_ELEMENT_MID
      (getTokenOf (skipWhitespaceTyped ParseType.BEGIN_ELEMENT_MID (62 :: rest)))
      { s with p := skipWhitespaceTyped ParseType.BEGIN_ELEMENT_MID (62 :: rest),
               tagName := [],
               tagNameStack := (c :: t, false) :: s.tagNameStack,
               elementTypeStack := ElementType.OBJECT :: s.elementTypeStack,
               recursionDepth := s.recursionDepth + 1,
               events := s.events ++
                 [Event.startObject (if (c :: t) = bs "root" then [] else (c :: t))],
               stack := ParseType.TEXT :: K } =
      ({ s with p := rest, tagName := [],
                tagNameStack := (c :: t, false) :: s.tagNameStack,
                elementTypeStack := ElementType.OBJECT :: s.elementTypeStack,
                recursionDepth := s.recursionDepth + 1,
                events := s.events ++
                  [Event.startObject (if (c :: t) = bs "root" then [] else (c :: t))],
                stack := ParseType.TEXT :: ParseType.TEXT :: K }, PStatus.ok) := by
    rw [skipWS_nospace _ 62 _ rfl, getTokenOf_close]
    simp +decide [dispatch, parseBeginElementMid, push, advance, advanceB_ascii]
  rw [runParser_step fuel
        { s with p := 62 :: rest, tagName := [],
                 tagNameStack := (c :: t, false) :: s.tagNameStack,
                 elementTypeStack := ElementType.OBJECT :: s.elementTypeStack,
                 recursionDepth := s.recursionDepth + 1,
                 events := s.events ++
                   [Event.startObject (if (c :: t) = bs "root" then [] else (c :: t))],
                 stack := ParseType.BEGIN_ELEMENT_MID :: ParseType.TEXT :: K }
        _ ParseType.BEGIN_ELEMENT_MID (ParseType.TEXT :: K) rfl ho hd3]
  rw [hs]

theorem closeStep (fuel : Nat) (s : PState) (n : Bytes) (K : List ParseType) (rest : Bytes)
    (tns : List (Bytes × Bool))
    (hv : validTagName n = true) (hl : (bs "_list_").isPrefixOf n = false)
    (ha : n ≠ bs "anonymous")
    (hs : s.stack = ParseType.TEXT :: K) (ho : s.stringOpen = 0)
    (hp : s.p = closeTagB n ++ rest)
    (hstk : s.tagNameStack = (n, false) :: tns) :
    runParser (fuel + 4) s = runParser fuel
      { s with p := rest,
               stack := K,
               tagName := n,
               tagNameStack := tns,
               elementTypeStack := s.elementTypeStack.tail,
               recursionDepth := s.recursionDepth - 1,
               events := s.events ++ [Event.endObject] } := by
  obtain ⟨c, t, rfl⟩ : ∃ c t, n = c :: t := by
    cases n with
    | nil => exact absurd hv (by decide)
    | cons c t => exact ⟨c, t, rfl⟩
  have hlet : isLetter c = true := by
    simp only [validTagName, Bool.and_eq_true] at hv
    exact hv.1
  -- iteration 1: TEXT sees '<'
  have hsw1 : skipWhitespaceTyped ParseType.TEXT s.p =
      60 :: (47 :: ((c :: t) ++ 62 :: rest)) := by
    rw [hp, show closeTagB (c :: t) ++ rest = 60 :: (47 :: ((c :: t) ++ 62 :: rest)) by
      simp [closeTagB]]
    exact skipWS_nospace _ 60 _ rfl
  have hd1 : dispatch ParseType.TEXT
      (getTokenOf (skipWhitespaceTyped ParseType.TEXT s.p))
      { s with p := skipWhitespaceTyped ParseType.TEXT s.p, stack := K } =
      ({ s with p := 47 :: ((c :: t) ++ 62 :: rest),
                stack := ParseType.START_TAG :: ParseType.TEXT :: K }, PStatus.ok) := by
    rw [hsw1, getTokenOf_open]
    simp +decide [dispatch, parseText, advance, advanceB_ascii]
  rw [show fuel + 4 = fuel + 3 + 1 from rfl,
      runParser_step (fuel + 3) s _ ParseType.TEXT K hs ho hd1]
  -- iteration 2: START_TAG sees '/', pops the TEXT entry and pushes END_TAG
  have hd2 : dispatch ParseType.START_TAG
      (getTokenOf (skipWhitespaceTyped ParseType.START_TAG (47 :: ((c :: t) ++ 62 :: rest))))
      { s with p := skipWhitespaceTyped ParseType.START_TAG (47 :: ((c :: t) ++ 62 :: rest)),
               stack := ParseType.TEXT :: K } =
      ({ s with p := (c :: t) ++ 62 :: rest,
                stack := ParseType.END_TAG :: K }, PStatus.ok) := by
    rw [skipWS_nospace _ 47 _ rfl, getTokenOf_slash]
    simp +decide [dispatch, parseStartTag, parseEndElementMidSlash, advance,
      advanceB_ascii, push]
  rw [show fuel + 3 = fuel + 2 + 1 from rfl,
      runParser_step (fuel + 2)
        { s with p := 47 :: ((c :: t) ++ 62 :: rest),
                 stack := ParseType.START_TAG :: ParseType.TEXT :: K }
        _ ParseType.START_TAG (ParseType.TEXT :: K) rfl ho hd2]
  -- iteration 3: END_TAG consumes the matching tag name
  have hsw3 : skipWhitespaceTyped ParseType.END_TAG ((c :: t) ++ 62 :: rest) =
      c :: (t ++ 62 :: rest) :=
    skipWS_nospace _ c _ (isLetter_not_space c hlet)
  have hct : consumeTagName (c :: (t ++ 62 :: rest)) = some (c :: t, 62 :: rest) := by
    simpa using consumeTagName_append (c :: t) (62 :: rest) hv rfl
  have hd3 : dispatch ParseType.END_TAG
      (getTokenOf (skipWhitespaceTyped ParseType.END_TAG ((c :: t) ++ 62 :: rest)))
      { s with p := skipWhitespaceTyped ParseType.END_TAG ((c :: t) ++ 62 :: rest),
               stack := K } =
      ({ s with p := 62 :: rest,
                tagName := c :: t,
                tagNameStack := tns,
                elementTypeStack := s.elementTypeStack.tail,
                recursionDepth := s.recursionDepth - 1,
                events := s.events ++ [Event.endObject],
                stack := ParseType.END_ELEMENT_CLOSE :: K }, PStatus.ok) := by
    rw [hsw3, getTokenOf_letter c _ hlet]
    show (parseEndTag TokenType.BEGIN_KEY _) = _
    unfold parseEndTag
    rw [hct]
    dsimp only
    simp only [List.cons_ne_nil, and_false, Bool.and_false, Bool.false_eq_true, if_false,
      if_true, decide_False, Bool.and_eq_true, decide_eq_true_eq, and_self, hstk]
    simp only [hl, Bool.false_eq_true, if_false, if_true]
    rw [if_pos ha]
    simp [push, emit]
  rw [show fuel + 2 = fuel + 1 + 1 from rfl,
      runParser_step (fuel + 1)
        { s with p := (c :: t) ++ 62 :: rest,
                 stack := ParseType.END_TAG :: K }
        _ ParseType.END_TAG K rfl ho hd3]
  -- iteration 4: END_ELEMENT_CLOSE sees '>'
  have hd4 : dispatch ParseType.END_ELEMENT_CLOSE
      (getTokenOf (skipWhitespaceTyped ParseType.END_ELEMENT_CLOSE (62 :: rest)))
      { s with p := skipWhitespaceTyped ParseType.END_ELEMENT_CLOSE (62 :: rest),
               tagName := c :: t,
               tagNameStack := tns,
               elementTypeStack := s.elementTypeStack.tail,
               recursionDepth := s.recursionDepth - 1,
               events := s.events ++ [Event.endObject],
               stack := K } =
      ({ s with p := rest,
                tagName := c :: t,
                tagNameStack := tns,
                elementTypeStack := s.elementTypeStack.tail,
                recursionDepth := s.recursionDepth - 1,
                events := s.events ++ [Event.endObject],
                stack := K }, PStatus.ok) := by
    rw [skipWS_nospace _ 62 _ rfl, getTokenOf_close]
    show (parseEndElementClose TokenType.CLOSE_TAG _) = _
    unfold parseEndElementClose
    simp +decide [advance, advanceB_ascii]
  rw [runParser_step fuel
        { s with p := 62 :: rest,
                 tagName := c :: t,
                 tagNameStack := tns,
                 elementTypeStack := s.elementTypeStack.tail,
                 recursionDepth := s.recursionDepth - 1,
                 events := s.events ++ [Event.endObject],
                 stack := ParseType.END_ELEMENT_CLOSE :: K }
        _ ParseType.END_ELEMENT_CLOSE K rfl ho hd4]

theorem firstOpenStep (fuel : Nat) (s : PState) (n : Bytes) (K : List ParseType) (rest : Bytes)
    (hv : validTagName n = true) (hl : (bs "_list_").isPrefixOf n = false)
    (ha : n ≠ bs "anonymous")
    (hpl : s.tagNameStack = [] ∨ ∃ nm tl, s.tagNameStack = (nm, false) :: tl)
    (hs : s.stack = ParseType.BEGIN_ELEMENT :: K) (ho : s.stringOpen = 0)
    (hp : s.p = openTagB n ++ rest)
    (hd : s.recursionDepth < s.maxRecursionDepth) :
    runParser (fuel + 3) s = runParser fuel
      { s with p := rest,
               stack := ParseType.TEXT :: K,
               tagName := [],
               tagNameStack := (n, false) :: s.tagNameStack,
               elementTypeStack := ElementType.OBJECT :: s.elementTypeStack,
               recursionDepth := s.recursionDepth + 1,
               events := s.events ++
                 [Event.startObject (if n = bs "root" then [] else n)] } := by
  obtain ⟨c, t, rfl⟩ : ∃ c t, n = c :: t := by
    cases n with
    | nil => exact absurd hv (by decide)
    | cons c t => exact ⟨c, t, rfl⟩
  have hlet : isLetter c = true := by
    simp only [validTagName, Bool.and_eq_true] at hv
    exact hv.1
  -- iteration 1: BEGIN_ELEMENT sees '<', pushes START_TAG
  have hsw1 : skipWhitespaceTyped ParseType.BEGIN_ELEMENT s.p =
      60 :: ((c :: t) ++ 62 :: rest) := by
    rw [hp, show openTagB (c :: t) ++ rest = 60 :: ((c :: t) ++ 62 :: rest) by
      simp [openTagB]]
    exact skipWS_nospace _ 60 _ rfl
  have hd1 : dispatch ParseType.BEGIN_ELEMENT
      (getTokenOf (skipWhitespaceTyped ParseType.BEGIN_ELEMENT s.p))
      { s with p := skipWhitespaceTyped ParseType.BEGIN_ELEMENT s.p, stack := K } =
      ({ s with p := (c :: t) ++ 62 :: rest,
                stack := ParseType.START_TAG :: K }, PStatus.ok) := by
    rw [hsw1, getTokenOf_open]
    simp +decide [dispatch, parseBeginElement, push, advance, advanceB_ascii]
  rw [show fuel + 3 = fuel + 2 + 1 from rfl,
      runParser_step (fuel + 2) s _ ParseType.BEGIN_ELEMENT K hs ho hd1]
  -- iteration 2: START_TAG consumes the tag name
  have hsw2 : skipWhitespaceTyped ParseType.START_TAG ((c :: t) ++ 62 :: rest) =
      c :: (t ++ 62 :: rest) :=
    skipWS_nospace _ c _ (isLetter_not_space c hlet)
  have hct : consumeTagName (c :: (t ++ 62 :: rest)) = some (c :: t, 62 :: rest) := by
    simpa using consumeTagName_append (c :: t) (62 :: rest) hv rfl
  have hd2 : dispatch ParseType.START_TAG
      (getTokenOf (skipWhitespaceTyped ParseType.START_TAG ((c :: t) ++ 62 :: rest)))
      { s with p := skipWhitespaceTyped ParseType.START_TAG ((c :: t) ++ 62 :: rest),
               stack := K } =
      ({ s with p := 62 :: rest, tagName := [],
                tagNameStack := (c :: t, false) :: s.tagNameStack,
                elementTypeStack := ElementType.OBJECT :: s.elementTypeStack,
                recursionDepth := s.recursionDepth + 1,
                events := s.events ++
                  [Event.startObject (if (c :: t) = bs "root" then [] else (c :: t))],
                stack := ParseType.BEGIN_ELEMENT_MID :: K }, PStatus.ok) := by
    rw [hsw2, getTokenOf_letter c _ hlet]
    show (parseStartTagName _) = _
    unfold parseStartTagName parseTagName
    rw [hct]
    dsimp only
    simp only [List.cons_ne_nil, and_false, Bool.and_false, Bool.false_eq_true, if_false,
      if_true, decide_False, Bool.and_eq_true, decide_eq_true_eq, and_self]
    rw [if_neg (by simp [hl] : ¬ (List.isPrefixOf (bs "_list_") (c :: t) = true))]
    rcases hpl with hnil | ⟨nm, tl, htns⟩
    · rw [hnil]
      dsimp only
      rw [if_pos ha]
      simp only [Bool.or_false]
      by_cases hroot : (c :: t) = bs "root"
      · simp only [hroot, decide_True, eq_self_iff_true, if_true]
        unfold incrementRecursionDepth
        dsimp only [emit]
        rw [if_neg (by omega : ¬ (s.recursionDepth + 1 > s.maxRecursionDepth))]
        simp [push, emit, hnil, hroot]
      · simp only [hroot, decide_False, Bool.false_eq_true, if_false]
        unfold incrementRecursionDepth
        dsimp only [emit]
        rw [if_neg (by omega : ¬ (s.recursionDepth + 1 > s.maxRecursionDepth))]
        simp [push, emit, hnil, hroot]
    · rw [htns]
      dsimp only
      rw [if_pos ha]
      simp only [Bool.or_false]
      by_cases hroot : (c :: t) = bs "root"
      · simp only [hroot, decide_True, eq_self_iff_true, if_true]
        unfold incrementRecursionDepth
        dsimp only [emit]
        rw [if_neg (by omega : ¬ (s.recursionDepth + 1 > s.maxRecursionDepth))]
        simp [push, emit, htns, hroot]
      · simp only [hroot, decide_False, Bool.false_eq_true, if_false]
        unfold incrementRecursionDepth
        dsimp only [emit]
        rw [if_neg (by omega : ¬ (s.recursionDepth + 1 > s.maxRecursionDepth))]
        simp [push, emit, htns, hroot]
  rw [show fuel + 2 = fuel + 1 + 1 from rfl,
      runParser_step (fuel + 1)
        { s with p := (c :: t) ++ 62 :: rest,
                 stack := ParseType.START_TAG :: K }
        _ ParseType.START_TAG K rfl ho hd2]
  -- iteration 3: BEGIN_ELEMENT_MID sees '>', pushes TEXT
  have hd3 : dispatch ParseType.BEGIN_ELEMENT_MID
      (getTokenOf (skipWhitespaceTyped ParseType.BEGIN_ELEMENT_MID (62 :: rest)))
      { s with p := skipWhitespaceTyped ParseType.BEGIN_ELEMENT_MID (62 :: rest),
               tagName := [],
               tagNameStack := (c :: t, false) :: s.tagNameStack,
               elementTypeStack := ElementType.OBJECT :: s.elementTypeStack,
               recursionDepth := s.recursionDepth + 1,
               events := s.events ++
                 [Event.startObject (if (c :: t) = bs "root" then [] else (c :: t))],
               stack := K } =
      ({ s with p := rest, tagName := [],
                tagNameStack := (c :: t, false) :: s.tagNameStack,
                elementTypeStack := ElementType.OBJECT :: s.elementTypeStack,
                recursionDepth := s.recursionDepth + 1,
                events := s.events ++
                  [Event.startObject (if (c :: t) = bs "root" then [] else (c :: t))],
                stack := ParseType.TEXT :: K }, PStatus.ok) := by
    rw [skipWS_nospace _ 62 _ rfl, getTokenOf_close]
    simp +decide [dispatch, parseBeginElementMid, push, advance, advanceB_ascii]
  rw [runParser_step fuel
        { s with p := 62 :: rest, tagName := [],
                 tagNameStack := (c :: t, false) :: s.tagNameStack,
                 elementTypeStack := ElementType.OBJECT :: s.elementTypeStack,
                 recursionDepth := s.recursionDepth + 1,
                 events := s.events ++
                   [Event.startObject (if (c :: t) = bs "root" then [] else (c :: t))],
                 stack := ParseType.BEGIN_ELEMENT_MID :: K }
        _ ParseType.BEGIN_ELEMENT_MID K rfl ho hd3]

theorem openAll : ∀ (names : List Bytes) (fuel : Nat) (s : PState) (K : List ParseType)
    (q : Bytes),
    (∀ n ∈ names, validTagName n = true ∧ (bs "_list_").isPrefixOf n = false ∧
      n ≠ bs "anonymous") →
    (s.tagNameStack = [] ∨ ∃ nm tl, s.tagNameStack = (nm, false) :: tl) →
    s.stack = ParseType.TEXT :: K → s.stringOpen = 0 →
    s.p = (names.map openTagB).flatten ++ q →
    s.recursionDepth + names.length ≤ s.maxRecursionDepth →
    runParser (fuel + 3 * names.length) s = runParser fuel
      { s with p := q,
               stack := List.replicate names.length ParseType.TEXT ++ s.stack,
               tagName := if names = [] then s.tagName else [],
               tagNameStack := (names.reverse.map (fun n => (n, false))) ++ s.tagNameStack,
               elementTypeStack :=
                 List.replicate names.length ElementType.OBJECT ++ s.elementTypeStack,
               recursionDepth := s.recursionDepth + names.length,
               events := s.events ++
                 names.map (fun n => Event.startObject (if n = bs "root" then [] else n)) } := by
  intro names
  induction names with
  | nil =>
    intro fuel s K q hconds hpl hs ho hp hdep
    simp only [List.map_nil, List.flatten_nil, List.nil_append] at hp
    show runParser fuel s = _
    apply congrArg (runParser fuel)
    rw [← hp]
    simp
  | cons n ns ih =>
    intro fuel s K q hconds hpl hs ho hp hdep
    have hn := hconds n (by simp)
    have hp' : s.p = openTagB n ++ ((ns.map openTagB).flatten ++ q) := by
      simpa [List.append_assoc] using hp
    rw [show fuel + 3 * (n :: ns).length = (fuel + 3 * ns.length) + 3 by
      simp [List.length_cons]; ring]
    rw [openStep (fuel + 3 * ns.length) s n K _ hn.1 hn.2.1 hn.2.2 hpl hs ho hp'
      (by simp only [List.length_cons] at hdep; push_cast at hdep; omega)]
    rw [ih fuel
      { s with p := (ns.map openTagB).flatten ++ q,
               stack := ParseType.TEXT :: s.stack,
               tagName := [],
               tagNameStack := (n, false) :: s.tagNameStack,
               elementTypeStack := ElementType.OBJECT :: s.elementTypeStack,
               recursionDepth := s.recursionDepth + 1,
               events := s.events ++
                 [Event.startObject (if n = bs "root" then [] else n)] }
      (ParseType.TEXT :: K) q
      (fun m hm => hconds m (by simp [hm]))
      (Or.inr ⟨n, s.tagNameStack, rfl⟩)
      (by show ParseType.TEXT :: s.stack = _; rw [hs])
      ho rfl
      (by show s.recursionDepth + 1 + (ns.length : Int) ≤ s.maxRecursionDepth
          simp only [List.length_cons] at hdep
          push_cast at hdep ⊢
          omega)]
    apply congrArg (runParser fuel)
    simp only [PState.mk.injEq, List.length_cons, List.replicate_succ', List.append_assoc,
      List.reverse_cons, List.map_append, List.map_cons, List.map_nil, List.cons_append,
      List.nil_append, ite_self, List.cons_ne_nil, if_false, and_true, true_and]
    push_cast
    ring

theorem closeAll : ∀ (rns : List Bytes) (fuel : Nat) (s : PState) (K : List ParseType)
    (q : Bytes) (tns : List (Bytes × Bool)),
    (∀ n ∈ rns, validTagName n = true ∧ (bs "_list_").isPrefixOf n = false ∧
      n ≠ bs "anonymous") →
    s.stack = List.replicate rns.length ParseType.TEXT ++ K →
    s.stringOpen = 0 →
    s.p = (rns.map closeTagB).flatten ++ q →
    s.tagNameStack = rns.map (fun n => (n, false)) ++ tns →
    runParser (fuel + 4 * rns.length) s = runParser fuel
      { s with p := q,
               stack := K,
               tagName := rns.getLastD s.tagName,
               tagNameStack := tns,
               elementTypeStack := s.elementTypeStack.drop rns.length,
               recursionDepth := s.recursionDepth - rns.length,
               events := s.events ++ List.replicate rns.length Event.endObject } := by
  intro rns
  induction rns with
  | nil =>
    intro fuel s K q tns hconds hs ho hp htns
    simp only [List.map_nil, List.flatten_nil, List.nil_append] at hp htns
    simp only [List.replicate, List.nil_append] at hs
    show runParser fuel s = _
    apply congrArg (runParser fuel)
    rw [← hp, ← hs, ← htns]
    simp
  | cons n ns ih =>
    intro fuel s K q tns hconds hs ho hp htns
    have hn := hconds n (by simp)
    have hp' : s.p = closeTagB n ++ ((ns.map closeTagB).flatten ++ q) := by
      simpa [List.append_assoc] using hp
    have hs' : s.stack = ParseType.TEXT ::
        (List.replicate ns.length ParseType.TEXT ++ K) := by
      simpa [List.replicate_succ] using hs
    have htns' : s.tagNameStack = (n, false) :: (ns.map (fun n => (n, false)) ++ tns) := by
      simpa using htns
    rw [show fuel + 4 * (n :: ns).length = (fuel + 4 * ns.length) + 4 by
      simp [List.length_cons]; ring]
    rw [closeStep (fuel + 4 * ns.length) s n
      (List.replicate ns.length ParseType.TEXT ++ K) _ _
      hn.1 hn.2.1 hn.2.2 hs' ho hp' htns']
    rw [ih fuel
      { s with p := (ns.map closeTagB).flatten ++ q,
               stack := List.replicate ns.length ParseType.TEXT ++ K,
               tagName := n,
               tagNameStack := ns.map (fun n => (n, false)) ++ tns,
               elementTypeStack := s.elementTypeStack.tail,
               recursionDepth := s.recursionDepth - 1,
               events := s.events ++ [Event.endObject] }
      K q tns
      (fun m hm => hconds m (by simp [hm]))
      rfl ho rfl rfl]
    apply congrArg (runParser fuel)
    simp only [PState.mk.injEq, List.length_cons, List.getLastD_cons, and_true, true_and,
      List.replicate_succ, List.cons_append, List.nil_append, eq_self_iff_true]
    refine ⟨?_, ?_, ?_⟩
    · push_cast
      ring
    · rw [← List.drop_one, List.drop_drop]
      congr 1
      omega
    · simp

theorem runParser_step_err (fuel : Nat) (s : PState) (ty : ParseType) (K : List ParseType)
    (k : Option ParseErrorType) (m : Bytes)
    (hs : s.stack = ty :: K) (ho : s.stringOpen = 0)
    (hd : (dispatch ty (getTokenOf (skipWhitespaceTyped ty s.p))
            { s with p := skipWhitespaceTyped ty s.p, stack := K }).2 =
          PStatus.err k m) :
    (runParser (fuel + 1) s).2 = PStatus.err k m := by
  rw [runParser_cons fuel s ty K hs ho, hd]

theorem openFailStep (fuel : Nat) (s : PState) (n : Bytes) (K : List ParseType) (rest : Bytes)
    (hv : validTagName n = true) (hl : (bs "_list_").isPrefixOf n = false)
    (ha : n ≠ bs "anonymous")
    (hpl : s.tagNameStack = [] ∨ ∃ nm tl, s.tagNameStack = (nm, false) :: tl)
    (hs : s.stack = ParseType.TEXT :: K) (ho : s.stringOpen = 0)
    (hp : s.p = openTagB n ++ rest)
    (hd : s.recursionDepth ≥ s.maxRecursionDepth) :
    (runParser (fuel + 2) s).2 =
      PStatus.err none
        (bs "Message too deep. Max recursion depth reached for tag '" ++ n ++ bs "'") := by
  obtain ⟨c, t, rfl⟩ : ∃ c t, n = c :: t := by
    cases n with
    | nil => exact absurd hv (by decide)
    | cons c t => exact ⟨c, t, rfl⟩
  have hlet : isLetter c = true := by
    simp only [validTagName, Bool.and_eq_true] at hv
    exact hv.1
  have hsw1 : skipWhitespaceTyped ParseType.TEXT s.p = 60 :: ((c :: t) ++ 62 :: rest) := by
    rw [hp, show openTagB (c :: t) ++ rest = 60 :: ((c :: t) ++ 62 :: rest) by
      simp [openTagB]]
    exact skipWS_nospace _ 60 _ rfl
  have hd1 : dispatch ParseType.TEXT
      (getTokenOf (skipWhitespaceTyped ParseType.TEXT s.p))
      { s with p := skipWhitespaceTyped ParseType.TEXT s.p, stack := K } =
      ({ s with p := (c :: t) ++ 62 :: rest,
                stack := ParseType.START_TAG :: ParseType.TEXT :: K }, PStatus.ok) := by
    rw [hsw1, getTokenOf_open]
    simp +decide [dispatch, parseText, advance, advanceB_ascii]
  rw [show fuel + 2 = fuel + 1 + 1 from rfl,
      runParser_step (fuel + 1) s _ ParseType.TEXT K hs ho hd1]
  have hsw2 : skipWhitespaceTyped ParseType.START_TAG ((c :: t) ++ 62 :: rest) =
      c :: (t ++ 62 :: rest) :=
    skipWS_nospace _ c _ (isLetter_not_space c hlet)
  have hct : consumeTagName (c :: (t ++ 62 :: rest)) = some (c :: t, 62 :: rest) := by
    simpa using consumeTagName_append (c :: t) (62 :: rest) hv rfl
  have hd2 : (dispatch ParseType.START_TAG
      (getTokenOf (skipWhitespaceTyped ParseType.START_TAG ((c :: t) ++ 62 :: rest)))
      { s with p := skipWhitespaceTyped ParseType.START_TAG ((c :: t) ++ 62 :: rest),
               stack := ParseType.TEXT :: K }).2 =
      PStatus.err none
        (bs "Message too deep. Max recursion depth reached for tag '" ++
          (c :: t) ++ bs "'") := by
    rw [hsw2, getTokenOf_letter c _ hlet]
    show (parseStartTagName _).2 = _
    unfold parseStartTagName parseTagName
    rw [hct]
    dsimp only
    simp only [List.cons_ne_nil, and_false, Bool.and_false, Bool.false_eq_true, if_false,
      if_true, decide_False, Bool.and_eq_true, decide_eq_true_eq, and_self]
    rw [if_neg (by simp [hl] : ¬ (List.isPrefixOf (bs "_list_") (c :: t) = true))]
    rcases hpl with hnil | ⟨nm, tl, htns⟩
    · rw [hnil]
      dsimp only
      rw [if_pos ha]
      simp only [Bool.or_false]
      by_cases hroot : (c :: t) = bs "root"
      · simp only [hroot, decide_True, eq_self_iff_true, if_true]
        unfold incrementRecursionDepth
        dsimp only [emit]
        rw [if_pos (by omega : s.recursionDepth + 1 > s.maxRecursionDepth)]
        simp [hroot]
      · simp only [hroot, decide_False, Bool.false_eq_true, if_false]
        unfold incrementRecursionDepth
        dsimp only [emit]
        rw [if_pos (by omega : s.recursionDepth + 1 > s.maxRecursionDepth)]
        simp [hroot]
    · rw [htns]
      dsimp only
      rw [if_pos ha]
      simp only [Bool.or_false]
      by_cases hroot : (c :: t) = bs "root"
      · simp only [hroot, decide_True, eq_self_iff_true, if_true]
        unfold incrementRecursionDepth
        dsimp only [emit]
        rw [if_pos (by omega : s.recursionDepth + 1 > s.maxRecursionDepth)]
        simp [hroot]
      · simp only [hroot, decide_False, Bool.false_eq_true, if_false]
        unfold incrementRecursionDepth
        dsimp only [emit]
        rw [if_pos (by omega : s.recursionDepth + 1 > s.maxRecursionDepth)]
        simp [hroot]
  exact runParser_step_err fuel _ ParseType.START_TAG (ParseType.TEXT :: K) none _ rfl ho hd2

theorem parseXml_single_ok (c : Bytes) (s' : PState) (hne : c ≠ [])
    (hval : utf8Spn c = c.length)
    (hrun : runParser (parserFuel { initState with p := c, xml := c, finishing := false })
              { initState with p := c, xml := c, finishing := false } = (s', PStatus.ok))
    (hp : s'.p = []) (hstk : s'.stack = []) (htns : s'.tagNameStack = []) :
    (parseXml [c]).2 = PStatus.ok := by
  have hrun' : runParser
      (parserFuel { initState with leftover := [], p := c, xml := c, finishing := false })
      { initState with leftover := [], p := c, xml := c, finishing := false } =
      (s', PStatus.ok) := hrun
  unfold parseXml parseChunks parse
  dsimp only
  rw [show initState.leftover ++ c = c from rfl]
  rw [hval]
  rw [if_pos (List.length_pos.mpr hne : List.length c > 0)]
  rw [List.take_length, List.drop_length]
  unfold parseChunk
  rw [if_neg hne]
  dsimp only
  rw [hrun']
  dsimp only
  rw [hp]
  rw [show skipWhitespaceB [] = [] from rfl]
  rw [if_neg (by simp : ¬ (PStatus.ok ≠ PStatus.ok))]
  rw [if_pos rfl]
  dsimp only
  rw [if_pos rfl]
  unfold parseChunks finishParse
  dsimp only
  rw [if_pos ⟨hstk, by simp, htns⟩]

theorem parseXml_single_err (c : Bytes) (k : Option ParseErrorType) (m : Bytes) (hne : c ≠ [])
    (hval : utf8Spn c = c.length)
    (hrun : (runParser (parserFuel { initState with p := c, xml := c, finishing := false })
              { initState with p := c, xml := c, finishing := false }).2 = PStatus.err k m) :
    (parseXml [c]).2 = PStatus.err k m := by
  have hrun' : (runParser
      (parserFuel { initState with leftover := [], p := c, xml := c, finishing := false })
      { initState with leftover := [], p := c, xml := c, finishing := false }).2 =
      PStatus.err k m := hrun
  unfold parseXml parseChunks parse
  dsimp only
  rw [show initState.leftover ++ c = c from rfl]
  rw [hval]
  rw [if_pos (List.length_pos.mpr hne : List.length c > 0)]
  rw [List.take_length, List.drop_length]
  unfold parseChunk
  rw [if_neg hne]
  dsimp only
  rw [hrun']
  rw [if_pos (by simp : (PStatus.err k m ≠ PStatus.ok))]
  simp [hrun']

theorem nestedRunOk (n : Bytes) (ns : List Bytes) (g : Nat)
    (hconds : ∀ m ∈ n :: ns, validTagName m = true ∧
      (bs "_list_").isPrefixOf m = false ∧ m ≠ bs "anonymous")
    (hdep : (n :: ns).length ≤ 100) :
    ∃ s', runParser ((((g + 1) + 4 * ((n :: ns).reverse).length) + 3 * ns.length) + 3)
        { initState with p := nestedXml (n :: ns), xml := nestedXml (n :: ns),
                         finishing := false } =
      (s', PStatus.ok) ∧ s'.p = [] ∧ s'.stack = [] ∧ s'.tagNameStack = [] ∧
      s'.leftover = [] := by
  have hn := hconds n (by simp)
  have hchain :=
    (((firstOpenStep (((g + 1) + 4 * ((n :: ns).reverse).length) + 3 * ns.length)
        { initState with p := nestedXml (n :: ns), xml := nestedXml (n :: ns),
                         finishing := false }
        n []
        ((ns.map openTagB).flatten ++ (((n :: ns).reverse).map closeTagB).flatten)
        hn.1 hn.2.1 hn.2.2
        (by exact Or.inl rfl)
        (by rfl) (by rfl)
        (by simp [nestedXml, List.append_assoc])
        (by show (0 : Int) < (100 : Int); decide)).trans
      (openAll ns ((g + 1) + 4 * ((n :: ns).reverse).length) _ []
        ((((n :: ns).reverse).map closeTagB).flatten)
        (by exact fun m hm => hconds m (by simp [hm]))
        (by exact Or.inr ⟨n, initState.tagNameStack, rfl⟩)
        (by rfl) (by rfl) (by rfl)
        (by show (0 : Int) + 1 + (ns.length : Int) ≤ 100
            simp only [List.length_cons] at hdep
            push_cast
            omega))).trans
      (closeAll ((n :: ns).reverse) (g + 1) _ [] [] []
        (by exact fun m hm => hconds m (List.mem_reverse.mp hm))
        (by simp [List.replicate_succ'])
        (by rfl)
        (by simp)
        (by simp [initState]))).trans
      (runParser_nil g _ (by rfl))
  exact ⟨_, hchain, rfl, rfl, rfl, rfl⟩

theorem nestedRunErr (a : Bytes) (A' : List Bytes) (b : Bytes) (B : List Bytes) (g : Nat)
    (hconds : ∀ m ∈ a :: (A' ++ b :: B), validTagName m = true ∧
      (bs "_list_").isPrefixOf m = false ∧ m ≠ bs "anonymous")
    (hlen : A'.length = 99) :
    (runParser (((g + 2) + 3 * A'.length) + 3)
        { initState with p := nestedXml (a :: (A' ++ b :: B)),
                         xml := nestedXml (a :: (A' ++ b :: B)),
                         finishing := false }).2 =
      PStatus.err none
        (bs "Message too deep. Max recursion depth reached for tag '" ++ b ++ bs "'") := by
  have ha := hconds a (by simp)
  have hb := hconds b (by simp)
  have hchain :=
    ((firstOpenStep ((g + 2) + 3 * A'.length)
        { initState with p := nestedXml (a :: (A' ++ b :: B)),
                         xml := nestedXml (a :: (A' ++ b :: B)), finishing := false }
        a []
        ((A'.map openTagB).flatten ++
          (openTagB b ++ ((B.map openTagB).flatten ++
            (((a :: (A' ++ b :: B)).reverse).map closeTagB).flatten)))
        ha.1 ha.2.1 ha.2.2
        (by exact Or.inl rfl)
        (by rfl) (by rfl)
        (by simp [nestedXml, List.append_assoc])
        (by show (0 : Int) < (100 : Int); decide)).trans
      (openAll A' (g + 2) _ []
        (openTagB b ++ ((B.map openTagB).flatten ++
          (((a :: (A' ++ b :: B)).reverse).map closeTagB).flatten))
        (by exact fun m hm => hconds m (by simp [hm]))
        (by exact Or.inr ⟨a, initState.tagNameStack, rfl⟩)
        (by rfl) (by rfl) (by rfl)
        (by show (0 : Int) + 1 + (A'.length : Int) ≤ 100
            push_cast
            omega)))
  refine (congrArg Prod.snd hchain).trans ?_
  exact openFailStep (g) _ b (List.replicate A'.length ParseType.TEXT)
    ((B.map openTagB).flatten ++ (((a :: (A' ++ b :: B)).reverse).map closeTagB).flatten)
    hb.1 hb.2.1 hb.2.2
    (by cases hA : A'.reverse with
        | nil => exact Or.inr ⟨a, initState.tagNameStack, by simp [hA]⟩
        | cons x xs =>
            exact Or.inr ⟨x, (xs.map (fun n => (n, false))) ++
              ((a, false) :: initState.tagNameStack), by simp [hA]⟩)
    (by show List.replicate A'.length ParseType.TEXT ++ (ParseType.TEXT :: []) =
          ParseType.TEXT :: List.replicate A'.length ParseType.TEXT
        rw [← List.replicate_succ, List.replicate_succ'])
    (by rfl) (by rfl)
    (by show (0 : Int) + 1 + (A'.length : Int) ≥ (100 : Int)
        push_cast
        omega)

theorem flatten_openTagB_length (names : List Bytes) (h : ∀ n ∈ names, n ≠ []) :
    3 * names.length ≤ ((names.map openTagB).flatten).length := by
  induction names with
  | nil => simp
  | cons n ns ih =>
    have h1 : 1 ≤ n.length := List.length_pos.mpr (h n (by simp))
    have h2 := ih (fun m hm => h m (by simp [hm]))
    simp only [List.map_cons, List.flatten_cons, List.length_append, List.length_cons,
      openTagB]
    omega

theorem flatten_closeTagB_length (names : List Bytes) (h : ∀ n ∈ names, n ≠ []) :
    4 * names.length ≤ ((names.map closeTagB).flatten).length := by
  induction names with
  | nil => simp
  | cons n ns ih =>
    have h1 : 1 ≤ n.length := List.length_pos.mpr (h n (by simp))
    have h2 := ih (fun m hm => h m (by simp [hm]))
    simp only [List.map_cons, List.flatten_cons, List.length_append, List.length_cons,
      closeTagB]
    omega

theorem validTagName_ne_nil (n : Bytes) (h : validTagName n = true) : n ≠ [] := by
  cases n with
  | nil => exact absurd h (by decide)
  | cons c t => simp

theorem nestedXml_length (names : List Bytes) (h : ∀ n ∈ names, n ≠ []) :
    7 * names.length ≤ (nestedXml names).length := by
  have h1 := flatten_openTagB_length names h
  have h2 := flatten_closeTagB_length names.reverse
    (fun m hm => h m (List.mem_reverse.mp hm))
  simp only [nestedXml, List.length_append]
  simp only [List.length_reverse] at h2
  omega

theorem nestedXml_ascii (names : List Bytes) (h : ∀ n ∈ names, validTagName n = true) :
    ∀ b ∈ nestedXml names, b < 128 := by
  intro b hb
  simp only [nestedXml, List.mem_append] at hb
  rcases hb with hb | hb
  · rcases List.mem_flatten.mp hb with ⟨l, hl, hbl⟩
    rcases List.mem_map.mp hl with ⟨n, hn, rfl⟩
    simp only [openTagB, List.mem_cons, List.mem_append, List.mem_singleton] at hbl
    rcases hbl with rfl | hbl'
    · omega
    rcases hbl' with hbn | h62
    · exact validTagName_lt128 n (h n hn) b hbn
    · rcases h62 with rfl | hfal
      · omega
      · simp at hfal
  · rcases List.mem_flatten.mp hb with ⟨l, hl, hbl⟩
    rcases List.mem_map.mp hl with ⟨n, hn, rfl⟩
    simp only [closeTagB, List.mem_cons, List.mem_append, List.mem_singleton] at hbl
    rcases hbl with rfl | hbl'
    · omega
    rcases hbl' with rfl | hbl2
    · omega
    rcases hbl2 with hbn | h62
    · exact validTagName_lt128 n (h n (List.mem_reverse.mp hn)) b hbn
    · rcases h62 with rfl | hfal
      · omega
      · simp at hfal

theorem nestedXml_ne_nil (names : List Bytes) (hne : names ≠ [])
    (h : ∀ n ∈ names, n ≠ []) : nestedXml names ≠ [] := by
  intro hcon
  have := nestedXml_length names h
  rw [hcon] at this
  cases names with
  | nil => exact hne rfl
  | cons n ns => simp at this

/-- C4: for a balanced nest of `k` non-list, non-`anonymous` object tags,
parsing succeeds iff `k ≤ 100` (the default `max_recursion_depth`), and
when `k > 100` the error is exactly `Message too deep. Max recursion depth
reached for tag '<t>'` where `<t>` is the 101st opening tag name, that is,
the first opener past the limit. -/
theorem C4_recursion_limit (names : List Bytes) (hne : names ≠ [])
    (hconds : ∀ n ∈ names, validTagName n = true ∧
      (bs "_list_").isPrefixOf n = false ∧ n ≠ bs "anonymous") :
    ((parseXml [nestedXml names]).2 = PStatus.ok ↔ names.length ≤ 100) ∧
    (100 < names.length →
      (parseXml [nestedXml names]).2 =
        PStatus.err none
          (bs "Message too deep. Max recursion depth reached for tag '" ++
            names.getD 100 [] ++ bs "'")) := by
  have hvn : ∀ n ∈ names, n ≠ [] := fun n hn => validTagName_ne_nil n (hconds n hn).1
  have hlen7 := nestedXml_length names hvn
  have hval : utf8Spn (nestedXml names) = (nestedXml names).length :=
    utf8Spn_ascii _ (nestedXml_ascii names (fun n hn => (hconds n hn).1))
  have hcne : nestedXml names ≠ [] := nestedXml_ne_nil names hne hvn
  have hsucc : names.length ≤ 100 → (parseXml [nestedXml names]).2 = PStatus.ok := by
    intro hdep
    obtain ⟨n, ns, rfl⟩ : ∃ n ns, names = n :: ns := by
      cases names with
      | nil => exact absurd rfl hne
      | cons n ns => exact ⟨n, ns, rfl⟩
    have hlen7' : 7 * (ns.length + 1) ≤ (nestedXml (n :: ns)).length := by
      simpa using hlen7
    obtain ⟨s', hrun, hp', hstk', htns', hleft'⟩ :=
      nestedRunOk n ns (3 * (nestedXml (n :: ns)).length + 2 - (7 * ns.length + 8))
        hconds hdep
    have hfe : parserFuel { initState with
                              p := nestedXml (n :: ns),
                              xml := nestedXml (n :: ns), finishing := false } =
        ((((3 * (nestedXml (n :: ns)).length + 2 - (7 * ns.length + 8)) + 1) +
          4 * ((n :: ns).reverse).length) + 3 * ns.length) + 3 := by
      show 3 * (nestedXml (n :: ns)).length + 1 + 1 = _
      simp only [List.length_reverse, List.length_cons]
      omega
    rw [← hfe] at hrun
    exact parseXml_single_ok _ s' hcne hval hrun hp' hstk' htns'
  have hfail : 100 < names.length → (parseXml [nestedXml names]).2 =
      PStatus.err none
        (bs "Message too deep. Max recursion depth reached for tag '" ++
          names.getD 100 [] ++ bs "'") := by
    intro hgt
    obtain ⟨b, B, hdrop⟩ : ∃ b B, names.drop 100 = b :: B := by
      cases hd : names.drop 100 with
      | nil =>
        exfalso
        have hle := List.drop_eq_nil_iff.mp hd
        omega
      | cons b B => exact ⟨b, B, rfl⟩
    obtain ⟨a, A', htake⟩ : ∃ a A', names.take 100 = a :: A' := by
      cases ht : names.take 100 with
      | nil =>
        exfalso
        have hz : (names.take 100).length = 0 := by rw [ht]; rfl
        rw [List.length_take] at hz
        omega
      | cons a A' => exact ⟨a, A', rfl⟩
    have hA'len : A'.length = 99 := by
      have hl100 : (names.take 100).length = 100 := by
        rw [List.length_take]
        omega
      rw [htake] at hl100
      simpa using hl100
    have hsplit : names = a :: (A' ++ b :: B) := by
      conv_lhs => rw [← List.take_append_drop 100 names]
      rw [htake, hdrop]
      rfl
    have hget : names.getD 100 [] = b := by
      have h1 : names = (a :: A') ++ (b :: B) := by
        rw [hsplit]
        simp
      rw [h1]
      rw [List.getD_eq_getElem?_getD]
      rw [List.getElem?_append_right (by simp [hA'len] : (a :: A').length ≤ 100)]
      simp [hA'len]
    obtain ⟨g, hg⟩ : ∃ g, 3 * (nestedXml names).length + 2 =
        ((g + 2) + 3 * A'.length) + 3 :=
      ⟨3 * (nestedXml names).length + 2 - 302, by rw [hA'len]; omega⟩
    have hconds' : ∀ m ∈ a :: (A' ++ b :: B), validTagName m = true ∧
        (bs "_list_").isPrefixOf m = false ∧ m ≠ bs "anonymous" :=
      fun m hm => hconds m (hsplit ▸ hm)
    have herr := nestedRunErr a A' b B g hconds' hA'len
    rw [← hsplit] at herr
    have hfe : parserFuel { initState with
                              p := nestedXml names,
                              xml := nestedXml names, finishing := false } =
        ((g + 2) + 3 * A'.length) + 3 := by
      show 3 * (nestedXml names).length + 1 + 1 = _
      omega
    rw [← hfe] at herr
    rw [hget]
    exact parseXml_single_err _ none _ hcne hval herr
  refine ⟨⟨fun hok => ?_, hsucc⟩, hfail⟩
  by_contra hn
  have hbad := hfail (by omega)
  rw [hbad] at hok
  exact absurd hok (by simp)

theorem C4_witness :
    (parseXml [nestedXml [bs "a", bs "b"]]).2 = PStatus.ok :=
  (C4_recursion_limit [bs "a", bs "b"] (by decide) (by decide)).1.mpr (by decide)

theorem C9_witness :
    skipWhitespaceTyped ParseType.BEGIN_ELEMENT_MID [32] ≠ [] ∧
    (parse (bs "<root ") initState).1.leftover = [] :=
  ⟨(C9_trailing_space [32] (by decide)).1,
   (C9_trailing_space [32] (by decide)).2.1⟩

end XmlUtil
